import Mathlib

/-!
Verification development for the podcast RSS MCP repository.

The Python sources are shallowly embedded here:
* `rss_parser.py` — the `PodcastRSSParser` class: `_parse_date`, `_get_feed`,
  `search_episodes`, `get_episode`, `_parse_episode`;
* `podcast_mcp/server.py` — the `search_episodes` tool boundary with pagination.

Strings are modelled as `List Char` (`Str`).  Python's `datetime.strptime`
is modelled per format-string actually used by `_parse_date`, following
CPython's `_strptime` semantics for those directives (case-insensitive
matching, `\s+` for literal whitespace runs, full-match requirement,
value validation on `datetime(...)` construction).  The `%Z` directive is
modelled for the reference POSIX environment `TZ=UTC`, where it matches
only the zone names UTC/GMT (case-insensitively) and yields offset 0.
Unicode-specific behaviour (non-ASCII whitespace, case folding) is out of
scope: all inputs of interest are ASCII.
-/

namespace Podcast

/-- Strings of the Python program, as lists of characters. -/
abbrev Str := List Char

/-- ASCII whitespace, as in Python's `str.strip` and regex `\s`. -/
def isPySpace (c : Char) : Bool :=
  c == ' ' || c == '\t' || c == '\n' || c == '\r' || c == '\x0b' || c == '\x0c'

/-- ASCII lower-casing (Python's case-insensitive regex matching / `str.lower`):
code points 65..90 are shifted by 32, everything else is unchanged. -/
def lcChar (c : Char) : Char :=
  if 65 ≤ c.toNat ∧ c.toNat ≤ 90 then Char.ofNat (c.toNat + 32) else c

/-- The decimal digit character for `n` (`n ≤ 9` in all uses). -/
def digitChar (n : Nat) : Char := Char.ofNat (48 + n)

/-- Numeric value of a decimal digit character. -/
def digitVal (c : Char) : Nat := c.toNat - 48

/-- ASCII decimal digit test (regex `\d` on ASCII input). -/
def isDigitC (c : Char) : Bool := 48 ≤ c.toNat && c.toNat ≤ 57

/-- Python `str.strip()` (ASCII whitespace). -/
def pyStrip (l : Str) : Str :=
  ((l.dropWhile isPySpace).reverse.dropWhile isPySpace).reverse

/-- Python `str.lower()` (ASCII). -/
def pyLower (l : Str) : Str := l.map lcChar

/-- Does `hay` start with `needle`? -/
def strStarts (needle hay : Str) : Bool :=
  match needle, hay with
  | [], _ => true
  | _ :: _, [] => false
  | a :: as, b :: bs => a == b && strStarts as bs

/-- Python's substring test `needle in hay`. -/
def containsSub (needle : Str) : Str → Bool
  | [] => strStarts needle []
  | c :: r => strStarts needle (c :: r) || containsSub needle r

/-- Truthiness of a Python value that is either `None` or a string. -/
def strTruthy : Option Str → Bool
  | none => false
  | some s => !s.isEmpty

/-- Python `a or b` for two None-or-string values. -/
def pyOrStr (a b : Option Str) : Option Str :=
  if strTruthy a then a else b

/-! ## Calendar arithmetic

`PyDateTime` models the `datetime.datetime` values produced by
`_parse_date`; `tz` is the UTC offset in seconds (`none` = naive).
`instantSecs` maps an aware value to its instant (seconds relative to the
epoch, via the standard civil-from-days algorithm); Python compares and
equates aware datetimes by exactly this instant. -/

/-- Gregorian leap year (as validated by `datetime`). -/
def isLeap (y : Nat) : Bool := (y % 4 == 0 && y % 100 != 0) || y % 400 == 0

/-- Days in a month, as validated by the `datetime` constructor. -/
def daysInMonth (y m : Nat) : Nat :=
  if m = 2 then (if isLeap y then 29 else 28)
  else if m = 4 ∨ m = 6 ∨ m = 9 ∨ m = 11 then 30
  else 31

/-- Days from the epoch 1970-01-01 of the civil date `y-m-d` (valid for `y ≥ 1`). -/
def daysFromCivil (y m d : Nat) : Int :=
  let yy := if m ≤ 2 then y - 1 else y
  let era := yy / 400
  let yoe := yy % 400
  let mp := (m + 9) % 12
  let doy := (153 * mp + 2) / 5 + d - 1
  let doe := yoe * 365 + yoe / 4 - yoe / 100 + doy
  (era : Int) * 146097 + (doe : Int) - 719468

/-- A parsed `datetime.datetime`: `tz` is the UTC offset in seconds, `none` = naive. -/
structure PyDateTime where
  year : Nat
  month : Nat
  day : Nat
  hour : Nat
  minute : Nat
  second : Nat
  tz : Option Int
deriving DecidableEq

/-- The instant (seconds from epoch) denoted by an aware datetime.
Python's `<`, `>`, `==` on aware datetimes compare this quantity. -/
def instantSecs (dt : PyDateTime) : Int :=
  daysFromCivil dt.year dt.month dt.day * 86400
    + ((dt.hour * 3600 + dt.minute * 60 + dt.second : Nat) : Int)
    - dt.tz.getD 0

/-- Validity checks performed by the `datetime` constructor (plus the
`timezone` bound of strictly less than 24 hours). -/
def dtOk (y m d h mi s : Nat) (tz : Option Int) : Bool :=
  decide (1 ≤ y) && decide (y ≤ 9999) && decide (1 ≤ m) && decide (m ≤ 12) &&
  decide (1 ≤ d) && decide (d ≤ daysInMonth y m) &&
  decide (h ≤ 23) && decide (mi ≤ 59) && decide (s ≤ 59) &&
  (match tz with
   | some z => decide (-86400 < z) && decide (z < 86400)
   | none => true)

/-- `datetime(...)` construction: `none` models a raised `ValueError`. -/
def mkDT (y m d h mi s : Nat) (tz : Option Int) : Option PyDateTime :=
  if dtOk y m d h mi s tz then some ⟨y, m, d, h, mi, s, tz⟩ else none

/-! ## `strptime` readers

Each reader consumes a directive (or literal) from the head of the input
and returns the parsed value and the rest, or `none` on mismatch, exactly
as CPython's `_strptime` regexes do for the format strings of
`_parse_date`. -/

/-- A 1-or-2 digit numeric directive: the two-digit branch is taken iff both
characters are digits and the value satisfies `ok2` (the union of the
two-digit alternatives of the CPython regex); otherwise a single digit
satisfying `ok1` is taken. -/
def readNum12 (ok2 ok1 : Nat → Bool) : Str → Option (Nat × Str)
  | c1 :: c2 :: r =>
    if isDigitC c1 && isDigitC c2 && ok2 (digitVal c1 * 10 + digitVal c2) then
      some (digitVal c1 * 10 + digitVal c2, r)
    else if isDigitC c1 && ok1 (digitVal c1) then
      some (digitVal c1, c2 :: r)
    else none
  | [c1] =>
    if isDigitC c1 && ok1 (digitVal c1) then some (digitVal c1, []) else none
  | [] => none

/-- `%d`: regex `3[01]|[12]\d|0[1-9]|[1-9]`. -/
def readDay : Str → Option (Nat × Str) :=
  readNum12 (fun v => decide (1 ≤ v) && decide (v ≤ 31)) (fun v => decide (1 ≤ v))

/-- `%H`: regex `2[0-3]|[0-1]\d|\d`. -/
def readHour : Str → Option (Nat × Str) :=
  readNum12 (fun v => decide (v ≤ 23)) (fun _ => true)

/-- `%m`: regex `1[0-2]|0[1-9]|[1-9]`. -/
def readMonthNum : Str → Option (Nat × Str) :=
  readNum12 (fun v => decide (1 ≤ v) && decide (v ≤ 12)) (fun v => decide (1 ≤ v))

/-- `%M`: regex `[0-5]\d|\d`. -/
def readMinute : Str → Option (Nat × Str) :=
  readNum12 (fun v => decide (v ≤ 59)) (fun _ => true)

/-- `%S`: regex `6[0-1]|[0-5]\d|\d` (values 60/61 later fail `datetime`
construction, so the format attempt fails there, as in CPython). -/
def readSecond : Str → Option (Nat × Str) :=
  readNum12 (fun v => decide (v ≤ 61)) (fun _ => true)

/-- `%Y`: regex `\d\d\d\d` (exactly four digits). -/
def readYear4 : Str → Option (Nat × Str)
  | a :: b :: c :: d :: r =>
    if isDigitC a && isDigitC b && isDigitC c && isDigitC d then
      some (digitVal a * 1000 + digitVal b * 100 + digitVal c * 10 + digitVal d, r)
    else none
  | _ => none

/-- Lower-cased three-letter weekday abbreviations (C locale). -/
def wdNames : List Str :=
  [['m','o','n'], ['t','u','e'], ['w','e','d'], ['t','h','u'],
   ['f','r','i'], ['s','a','t'], ['s','u','n']]

/-- Lower-cased three-letter month abbreviations (C locale). -/
def moNames : List Str :=
  [['j','a','n'], ['f','e','b'], ['m','a','r'], ['a','p','r'],
   ['m','a','y'], ['j','u','n'], ['j','u','l'], ['a','u','g'],
   ['s','e','p'], ['o','c','t'], ['n','o','v'], ['d','e','c']]

/-- Index of `key` in a list of names. -/
def listIndexOf (key : Str) : List Str → Option Nat
  | [] => none
  | n :: ns => if n = key then some 0 else (listIndexOf key ns).map (· + 1)

/-- A three-letter name directive (`%a`, `%b`), matched case-insensitively. -/
def readName3 (names : List Str) : Str → Option (Nat × Str)
  | c1 :: c2 :: c3 :: r =>
    match listIndexOf [lcChar c1, lcChar c2, lcChar c3] names with
    | some i => some (i, r)
    | none => none
  | _ => none

/-- `%b`, returning the month number 1..12. -/
def readMonName (l : Str) : Option (Nat × Str) :=
  (readName3 moNames l).map fun p => (p.1 + 1, p.2)

/-- A literal character of the format string (letters match case-insensitively
because `_strptime` compiles with `re.IGNORECASE`). -/
def readLitCI (c : Char) : Str → Option Str
  | x :: r => if lcChar x = lcChar c then some r else none
  | [] => none

/-- Literal whitespace in the format: regex `\s+` (greedy; every following
token in the formats used starts with a non-space character). -/
def readWs1 : Str → Option Str
  | c :: r => if isPySpace c then some (r.dropWhile isPySpace) else none
  | [] => none

/-- Up to `n` further fraction digits (greedy). -/
def readFracDigits : Nat → Str → Str
  | 0, l => l
  | _ + 1, [] => []
  | n + 1, c :: r => if isDigitC c then readFracDigits n r else c :: r

/-- Optional `.d{1,6}` fraction of a `%z` seconds field (value ignored:
sub-second offsets do not occur in any claim input). -/
def readTzFr (off : Int) : Str → Option (Int × Str)
  | '.' :: c :: r =>
    if isDigitC c then some (off, readFracDigits 5 r) else some (off, '.' :: c :: r)
  | l => some (off, l)

/-- Optional `:\d\d` seconds of `%z`. -/
def readTzSS (sign : Int) (hh mm : Nat) : Str → Option (Int × Str)
  | ':' :: a :: b :: r =>
    if isDigitC a && isDigitC b then
      readTzFr (sign * ((hh * 3600 + mm * 60 + (digitVal a * 10 + digitVal b) : Nat) : Int)) r
    else some (sign * ((hh * 3600 + mm * 60 : Nat) : Int), ':' :: a :: b :: r)
  | l => some (sign * ((hh * 3600 + mm * 60 : Nat) : Int), l)

/-- The mandatory two minute digits of `%z`. -/
def readTzMM (sign : Int) (hh : Nat) : Str → Option (Int × Str)
  | a :: b :: r =>
    if isDigitC a && isDigitC b then readTzSS sign hh (digitVal a * 10 + digitVal b) r
    else none
  | _ => none

/-- `%z`: regex `[+-]\d\d:?\d\d(:\d\d(\.\d{1,6})?)?|Z` (the `Z` alternative is
case-sensitive in CPython). Returns the offset in seconds. -/
def readTz : Str → Option (Int × Str)
  | 'Z' :: r => some (0, r)
  | '+' :: a :: b :: r =>
    if isDigitC a && isDigitC b then
      match r with
      | ':' :: r2 => readTzMM 1 (digitVal a * 10 + digitVal b) r2
      | _ => readTzMM 1 (digitVal a * 10 + digitVal b) r
    else none
  | '-' :: a :: b :: r =>
    if isDigitC a && isDigitC b then
      match r with
      | ':' :: r2 => readTzMM (-1) (digitVal a * 10 + digitVal b) r2
      | _ => readTzMM (-1) (digitVal a * 10 + digitVal b) r
    else none
  | _ => none

/-- `%Z` in the reference environment `TZ=UTC`: only the names UTC and GMT
match (case-insensitively), both giving offset 0. -/
def readZoneName : Str → Option Str
  | c1 :: c2 :: c3 :: r =>
    if [lcChar c1, lcChar c2, lcChar c3] = ['u','t','c'] ∨
       [lcChar c1, lcChar c2, lcChar c3] = ['g','m','t'] then some r
    else none
  | _ => none

/-- `%H:%M:%S`. -/
def readTimeHMS (l : Str) : Option ((Nat × Nat × Nat) × Str) :=
  (readHour l).bind fun ph =>
  (readLitCI ':' ph.2).bind fun l =>
  (readMinute l).bind fun pm =>
  (readLitCI ':' pm.2).bind fun l =>
  (readSecond l).map fun ps => ((ph.1, pm.1, ps.1), ps.2)

/-- `%a, %d %b %Y %H:%M:%S` — the common prefix of the three RFC-2822 formats.
Returns `(y, m, d, h, mi, s)`. -/
def readRfcCore (l : Str) : Option ((Nat × Nat × Nat × Nat × Nat × Nat) × Str) :=
  (readName3 wdNames l).bind fun pw =>
  (readLitCI ',' pw.2).bind fun l =>
  (readWs1 l).bind fun l =>
  (readDay l).bind fun pd =>
  (readWs1 pd.2).bind fun l =>
  (readMonName l).bind fun pm =>
  (readWs1 pm.2).bind fun l =>
  (readYear4 l).bind fun py =>
  (readWs1 py.2).bind fun l =>
  (readTimeHMS l).map fun pt =>
    ((py.1, pm.1, pd.1, pt.1.1, pt.1.2.1, pt.1.2.2), pt.2)

/-- `%Y-%m-%d` — the common prefix of the ISO-style formats. -/
def readIsoDate (l : Str) : Option ((Nat × Nat × Nat) × Str) :=
  (readYear4 l).bind fun py =>
  (readLitCI '-' py.2).bind fun l =>
  (readMonthNum l).bind fun pm =>
  (readLitCI '-' pm.2).bind fun l =>
  (readDay l).map fun pd => ((py.1, pm.1, pd.1), pd.2)

/-- `%d %b %Y` — the common prefix of the two day-month-year formats. -/
def readDmyCore (l : Str) : Option ((Nat × Nat × Nat) × Str) :=
  (readDay l).bind fun pd =>
  (readWs1 pd.2).bind fun l =>
  (readMonName l).bind fun pm =>
  (readWs1 pm.2).bind fun l =>
  (readYear4 l).map fun py => ((py.1, pm.1, pd.1), py.2)

/-- Format 1: `"%a, %d %b %Y %H:%M:%S %z"`. -/
def fmtRfcOffset (l : Str) : Option PyDateTime :=
  (readRfcCore l).bind fun pc =>
  (readWs1 pc.2).bind fun l =>
  (readTz l).bind fun pz =>
  if pz.2 = [] then
    mkDT pc.1.1 pc.1.2.1 pc.1.2.2.1 pc.1.2.2.2.1 pc.1.2.2.2.2.1 pc.1.2.2.2.2.2 (some pz.1)
  else none

/-- Format 2: `"%a, %d %b %Y %H:%M:%S %Z"`. -/
def fmtRfcNamed (l : Str) : Option PyDateTime :=
  (readRfcCore l).bind fun pc =>
  (readWs1 pc.2).bind fun l =>
  (readZoneName l).bind fun r =>
  if r = [] then
    mkDT pc.1.1 pc.1.2.1 pc.1.2.2.1 pc.1.2.2.2.1 pc.1.2.2.2.2.1 pc.1.2.2.2.2.2 (some 0)
  else none

/-- Format 3: `"%a, %d %b %Y %H:%M:%S"`. -/
def fmtRfcBare (l : Str) : Option PyDateTime :=
  (readRfcCore l).bind fun pc =>
  if pc.2 = [] then
    mkDT pc.1.1 pc.1.2.1 pc.1.2.2.1 pc.1.2.2.2.1 pc.1.2.2.2.2.1 pc.1.2.2.2.2.2 none
  else none

/-- Format 4: `"%Y-%m-%dT%H:%M:%S%z"`. -/
def fmtIsoOffset (l : Str) : Option PyDateTime :=
  (readIsoDate l).bind fun pd =>
  (readLitCI 'T' pd.2).bind fun l =>
  (readTimeHMS l).bind fun pt =>
  (readTz pt.2).bind fun pz =>
  if pz.2 = [] then
    mkDT pd.1.1 pd.1.2.1 pd.1.2.2 pt.1.1 pt.1.2.1 pt.1.2.2 (some pz.1)
  else none

/-- Format 5: `"%Y-%m-%dT%H:%M:%SZ"` (trailing literal `Z`, naive result). -/
def fmtIsoZulu (l : Str) : Option PyDateTime :=
  (readIsoDate l).bind fun pd =>
  (readLitCI 'T' pd.2).bind fun l =>
  (readTimeHMS l).bind fun pt =>
  (readLitCI 'Z' pt.2).bind fun r =>
  if r = [] then mkDT pd.1.1 pd.1.2.1 pd.1.2.2 pt.1.1 pt.1.2.1 pt.1.2.2 none
  else none

/-- Format 6: `"%Y-%m-%dT%H:%M:%S"`. -/
def fmtIsoBare (l : Str) : Option PyDateTime :=
  (readIsoDate l).bind fun pd =>
  (readLitCI 'T' pd.2).bind fun l =>
  (readTimeHMS l).bind fun pt =>
  if pt.2 = [] then mkDT pd.1.1 pd.1.2.1 pd.1.2.2 pt.1.1 pt.1.2.1 pt.1.2.2 none
  else none

/-- Format 7: `"%Y-%m-%d %H:%M:%S"`. -/
def fmtSpaced (l : Str) : Option PyDateTime :=
  (readIsoDate l).bind fun pd =>
  (readWs1 pd.2).bind fun l =>
  (readTimeHMS l).bind fun pt =>
  if pt.2 = [] then mkDT pd.1.1 pd.1.2.1 pd.1.2.2 pt.1.1 pt.1.2.1 pt.1.2.2 none
  else none

/-- Format 8: `"%Y-%m-%d"`. -/
def fmtDateOnly (l : Str) : Option PyDateTime :=
  (readIsoDate l).bind fun pd =>
  if pd.2 = [] then mkDT pd.1.1 pd.1.2.1 pd.1.2.2 0 0 0 none
  else none

/-- Format 9: `"%d %b %Y %H:%M:%S %z"`. -/
def fmtDmyOffset (l : Str) : Option PyDateTime :=
  (readDmyCore l).bind fun pd =>
  (readWs1 pd.2).bind fun l =>
  (readTimeHMS l).bind fun pt =>
  (readWs1 pt.2).bind fun l =>
  (readTz l).bind fun pz =>
  if pz.2 = [] then
    mkDT pd.1.1 pd.1.2.1 pd.1.2.2 pt.1.1 pt.1.2.1 pt.1.2.2 (some pz.1)
  else none

/-- Format 10: `"%d %b %Y"`. -/
def fmtDmyBare (l : Str) : Option PyDateTime :=
  (readDmyCore l).bind fun pd =>
  if pd.2 = [] then mkDT pd.1.1 pd.1.2.1 pd.1.2.2 0 0 0 none
  else none

/-- The format loop of `_parse_date`: the fixed priority list, first success wins. -/
def tryFormats (l : Str) : Option PyDateTime :=
  fmtRfcOffset l <|> fmtRfcNamed l <|> fmtRfcBare l <|>
  fmtIsoOffset l <|> fmtIsoZulu l <|> fmtIsoBare l <|>
  fmtSpaced l <|> fmtDateOnly l <|>
  fmtDmyOffset l <|> fmtDmyBare l

/-- The timezone-offset preprocessing of `_parse_date`: if the string ends in
`[+-]\d{4}`, rewrite the trailing `±HHMM` to `±HH:MM`. -/
def fixOffsetColon (l : Str) : Str :=
  match l.reverse with
  | d1 :: d2 :: d3 :: d4 :: s :: rest =>
    if (s == '+' || s == '-') && isDigitC d1 && isDigitC d2 && isDigitC d3 && isDigitC d4 then
      rest.reverse ++ [s, d4, d3, ':', d2, d1]
    else l
  | _ => l

/-! ## The regex fallback of `_parse_date`

`re.search(r'(\d{1,2})\s+(\w{3})\s+(\d{4})', s)`: leftmost match, with the
two-digit day alternative preferred at each start position. -/

/-- Regex `\w` on ASCII input. -/
def isWordChar (c : Char) : Bool := c.isAlpha || isDigitC c || c == '_'

/-- `\d{4}` at the head (any remainder is allowed: the pattern is unanchored). -/
def fbYear4 : Str → Option Nat
  | a :: b :: c :: d :: _ =>
    if isDigitC a && isDigitC b && isDigitC c && isDigitC d then
      some (digitVal a * 1000 + digitVal b * 100 + digitVal c * 10 + digitVal d)
    else none
  | _ => none

/-- `\s+(\w{3})\s+(\d{4})` following the day digits. -/
def fbAfterDay (l : Str) : Option ((Char × Char × Char) × Nat) :=
  (readWs1 l).bind fun l =>
  match l with
  | c1 :: c2 :: c3 :: r =>
    if isWordChar c1 && isWordChar c2 && isWordChar c3 then
      (readWs1 r).bind fun r =>
      (fbYear4 r).map fun y => ((c1, c2, c3), y)
    else none
  | _ => none

/-- One attempt of the fallback pattern at the current position: the
two-digit day is tried first, then the one-digit day. -/
def fbTryAt (l : Str) : Option (Nat × (Char × Char × Char) × Nat) :=
  (match l with
   | c1 :: c2 :: r =>
     if isDigitC c1 && isDigitC c2 then
       (fbAfterDay r).map fun p => (digitVal c1 * 10 + digitVal c2, p.1, p.2)
     else none
   | _ => none) <|>
  (match l with
   | c1 :: r =>
     if isDigitC c1 then
       (fbAfterDay r).map fun p => (digitVal c1, p.1, p.2)
     else none
   | _ => none)

/-- `re.search`: try every start position left to right. -/
def fbSearch : Str → Option (Nat × (Char × Char × Char) × Nat)
  | [] => none
  | c :: r =>
    match fbTryAt (c :: r) with
    | some x => some x
    | none => fbSearch r

/-- The `month_map` of the fallback (a case-sensitive exact lookup). -/
def monthNumOf : Char × Char × Char → Option Nat
  | ('J', 'a', 'n') => some 1
  | ('F', 'e', 'b') => some 2
  | ('M', 'a', 'r') => some 3
  | ('A', 'p', 'r') => some 4
  | ('M', 'a', 'y') => some 5
  | ('J', 'u', 'n') => some 6
  | ('J', 'u', 'l') => some 7
  | ('A', 'u', 'g') => some 8
  | ('S', 'e', 'p') => some 9
  | ('O', 'c', 't') => some 10
  | ('N', 'o', 'v') => some 11
  | ('D', 'e', 'c') => some 12
  | _ => none

/-- The whole fallback: extract `<day> <Mon> <year>` and build a midnight
datetime; a construction failure is swallowed (`except ... pass`). -/
def fallbackParse (l : Str) : Option PyDateTime :=
  match fbSearch l with
  | some (d, mo, y) =>
    match monthNumOf mo with
    | some m => mkDT y m d 0 0 0 none
    | none => none
  | none => none

/-- `replace(tzinfo=timezone.utc)` applied when the parse produced a naive value. -/
def makeAware (dt : PyDateTime) : PyDateTime :=
  match dt.tz with
  | some _ => dt
  | none => { dt with tz := some 0 }

/-- Control-flow trace of one `_parse_date` call:
`attemptedFormats` is true iff the `strptime` format loop was entered, and
`warned` is true iff the `"Warning: Could not parse date"` print executed. -/
structure DateParseTrace where
  result : Option PyDateTime
  attemptedFormats : Bool
  warned : Bool
deriving DecidableEq

/-- `PodcastRSSParser._parse_date`, with its control flow made observable.
The empty string fails the initial `if not date_string` truthiness test and
returns immediately; any other input is stripped, offset-colon-fixed, run
through the format list, then the regex fallback, and finally forced
timezone-aware (UTC when naive). -/
def parseDateTraced (s : Str) : DateParseTrace :=
  if s = [] then ⟨none, false, false⟩
  else
    let t := fixOffsetColon (pyStrip s)
    let parsed :=
      match tryFormats t with
      | some dt => some dt
      | none => fallbackParse t
    match parsed with
    | none => ⟨none, true, true⟩
    | some dt => ⟨some (makeAware dt), true, false⟩

/-- `PodcastRSSParser._parse_date` (its return value). -/
def parseDate (s : Str) : Option PyDateTime := (parseDateTraced s).result

/-! ## The XML item model and `_parse_episode`

An `XmlElem` is an lxml element as `_parse_episode` observes it: its
`.text`, which is `None` (here `none`) when the element has no text node.
An `XmlItem` carries exactly the children/descendants that
`_parse_episode` looks up (`find`/`findall` results), and the attribute
dictionaries of enclosure/person/transcript/chapters elements as
`Option Str` per attribute (`none` = attribute absent). -/

/-- An element with its `.text` (which lxml reports as `None` when empty). -/
structure XmlElem where
  text : Option Str
deriving DecidableEq

/-- An `<enclosure>` element's attributes. -/
structure XmlEnclosure where
  url : Option Str
  mime : Option Str
  length : Option Str
deriving DecidableEq

/-- A namespaced `<podcast:person>` element. -/
structure XmlPerson where
  role : Option Str
  text : Option Str
deriving DecidableEq

/-- A namespaced `<podcast:transcript>` element's attributes. -/
structure XmlTranscript where
  url : Option Str
  mime : Option Str
  language : Option Str
deriving DecidableEq

/-- A namespaced `<podcast:chapters>` element's attributes. -/
structure XmlChapters where
  url : Option Str
deriving DecidableEq

/-- One `<item>` element, as observed by `_parse_episode` and `get_episode`:
the simple child elements (`none` = element absent), and the lists of
enclosure/person/transcript descendants in document order. -/
structure XmlItem where
  title : Option XmlElem
  guid : Option XmlElem
  link : Option XmlElem
  pubDate : Option XmlElem
  description : Option XmlElem
  duration : Option XmlElem
  episodeNum : Option XmlElem
  enclosures : List XmlEnclosure
  persons : List XmlPerson
  transcripts : List XmlTranscript
  chapters : Option XmlChapters
deriving DecidableEq

/-- The `get_text` helper of `_parse_episode`: `""` when the element is
absent, otherwise the element's `.text` — which may be Python `None`. -/
def getTextOf : Option XmlElem → Option Str
  | none => some []
  | some e => e.text

/-- The `get_cdata_content` helper: the stripped text when the element exists
and its text is truthy, otherwise `""`. -/
def getCdataOf : Option XmlElem → Str
  | none => []
  | some e =>
    match e.text with
    | some t => if t.isEmpty then [] else pyStrip t
    | none => []

/-- One entry of `transcript_urls`. -/
structure TranscriptRef where
  url : Str
  mime : Str
  language : Str
deriving DecidableEq

/-- One entry of `enclosures`. -/
structure EnclosureRec where
  url : Str
  mime : Str
  length : Str
deriving DecidableEq

/-- The episode dictionary built by `_parse_episode`.  Every key of the
Python dict is a field here (field-total by construction); fields whose
Python value can be either a string or `None` have type `Option Str`. -/
structure EpisodeData where
  show_name : Str
  id : Option Str
  episode_number : Option Str
  title : Option Str
  description : Str
  published_date : Option Str
  link : Option Str
  duration : Option Str
  hosts : List Str
  transcript_urls : List TranscriptRef
  enclosures : List EnclosureRec
  chapters_url : Option Str
  transcript_url : Option Str
deriving DecidableEq

/-- The `podcast:person` loop: keep `role == "host"` entries whose text is
truthy, stripped, in document order. -/
def hostsOf : List XmlPerson → List Str
  | [] => []
  | p :: ps =>
    if p.role.getD [] = "host".data then
      match p.text with
      | some nm => if nm.isEmpty then hostsOf ps else pyStrip nm :: hostsOf ps
      | none => hostsOf ps
    else hostsOf ps

/-- The enclosure loop: attribute defaults `""`, `""`, `"0"`. -/
def enclosuresOf (es : List XmlEnclosure) : List EnclosureRec :=
  es.map fun e => ⟨e.url.getD [], e.mime.getD [], e.length.getD "0".data⟩

/-- The `podcast:transcript` loop: entries with a truthy `url` attribute,
`language` defaulting to `"en-us"`. -/
def transcriptsOf : List XmlTranscript → List TranscriptRef
  | [] => []
  | t :: ts =>
    match t.url with
    | some u =>
      if u.isEmpty then transcriptsOf ts
      else ⟨u, t.mime.getD [], t.language.getD "en-us".data⟩ :: transcriptsOf ts
    | none => transcriptsOf ts

/-- `PodcastRSSParser._parse_episode`. -/
def parseEpisode (shw : Str) (it : XmlItem) : EpisodeData :=
  let trs := transcriptsOf it.transcripts
  { show_name := shw
    id := pyOrStr (getTextOf it.guid) (getTextOf it.episodeNum)
    episode_number := getTextOf it.episodeNum
    title := getTextOf it.title
    description := getCdataOf it.description
    published_date := getTextOf it.pubDate
    link := getTextOf it.link
    duration := getTextOf it.duration
    hosts := hostsOf it.persons
    transcript_urls := trs
    enclosures := enclosuresOf it.enclosures
    chapters_url := match it.chapters with
      | some c => c.url
      | none => none
    transcript_url := match trs with
      | [] => none
      | t :: _ => some t.url }

/-! ## The query engine (`search_episodes` of `rss_parser.py`)

The feed-resolution collaborator `_get_feed` is abstracted as a pure
function `gf : Str → Option (List XmlItem)` giving, per show name, the
parsed feed's `<item>` list (or `none` when the feed is unknown or its
fetch/parse failed); the cache state machine behind it is modelled
separately below.  A Python exception escaping the engine (the
`AttributeError` from calling `.lower()` on a `None` title under an
active text filter) is modelled by `Except`. -/

/-- Exceptions that can escape `search_episodes`. -/
inductive PyErr where
  | valueError (msg : Str)
  | attributeError
deriving DecidableEq

/-- The five search parameters. -/
structure Query where
  show_name : Option Str
  since_date : Option Str
  before_date : Option Str
  hosts : Option (List Str)
  text_search : Option Str
deriving DecidableEq

/-- `any([show_name, since_date, before_date, hosts, text_search])`. -/
def queryTruthy (q : Query) : Bool :=
  strTruthy q.show_name || strTruthy q.since_date || strTruthy q.before_date ||
  (match q.hosts with
   | some l => !l.isEmpty
   | none => false) ||
  strTruthy q.text_search

/-- `shows_to_search = [show_name] if show_name else self.get_shows()`. -/
def scopedShows (q : Query) (shows : List Str) : List Str :=
  match q.show_name with
  | some s => if s.isEmpty then shows else [s]
  | none => shows

/-- `since_dt` (`if since_date: since_dt = self._parse_date(since_date)`). -/
def sinceDtOf (q : Query) : Option PyDateTime :=
  match q.since_date with
  | some s => if s.isEmpty then none else parseDate s
  | none => none

/-- `before_dt`. -/
def beforeDtOf (q : Query) : Option PyDateTime :=
  match q.before_date with
  | some s => if s.isEmpty then none else parseDate s
  | none => none

/-- The `since_dt` filter check: `true` = the record survives (no
`continue`).  The record's own date is re-parsed; a record is skipped only
when its date is truthy, parses, and is strictly before `since_dt`. -/
def sinceKeep (sdt : Option PyDateTime) (e : EpisodeData) : Bool :=
  match sdt, e.published_date with
  | some sv, some p =>
    if p.isEmpty then true
    else
      match parseDate p with
      | some ed => !decide (instantSecs ed < instantSecs sv)
      | none => true
  | _, _ => true

/-- The `before_dt` filter check, symmetric with `>`. -/
def beforeKeep (bdt : Option PyDateTime) (e : EpisodeData) : Bool :=
  match bdt, e.published_date with
  | some bv, some p =>
    if p.isEmpty then true
    else
      match parseDate p with
      | some ed => !decide (instantSecs bv < instantSecs ed)
      | none => true
  | _, _ => true

/-- The host filter check (case-insensitive membership, vacuous for a
falsy `hosts` argument). -/
def hostKeep (hosts : Option (List Str)) (e : EpisodeData) : Bool :=
  match hosts with
  | some hl =>
    if hl.isEmpty then true
    else hl.any fun h => (e.hosts.map pyLower).contains (pyLower h)
  | none => true

/-- The text filter check.  `episode_data.get("title", "")` returns the
stored title, which is Python `None` for a present-but-textless `<title>`;
calling `.lower()` on it raises `AttributeError`. -/
def textKeep (text : Option Str) (e : EpisodeData) : Except PyErr Bool :=
  match text with
  | some t =>
    if t.isEmpty then .ok true
    else
      match e.title with
      | some title =>
        .ok (containsSub (pyLower t) (pyLower title) ||
             containsSub (pyLower t) (pyLower e.description))
      | none => .error .attributeError
  | none => .ok true

/-- The four filter checks of the episode loop, in source order with the
source's short-circuiting (`continue`). -/
def keepEpisode (sdt bdt : Option PyDateTime) (hosts : Option (List Str))
    (text : Option Str) (e : EpisodeData) : Except PyErr Bool :=
  if !sinceKeep sdt e then .ok false
  else if !beforeKeep bdt e then .ok false
  else if !hostKeep hosts e then .ok false
  else textKeep text e

/-- The inner episode loop over one show's records: append records whose
checks pass; a raised exception aborts the whole search. -/
def filterEpisodes (keep : EpisodeData → Except PyErr Bool) :
    List EpisodeData → Except PyErr (List EpisodeData)
  | [] => .ok []
  | e :: es =>
    match keep e with
    | .error er => .error er
    | .ok b =>
      match filterEpisodes keep es with
      | .error er => .error er
      | .ok r => .ok (if b then e :: r else r)

/-- The outer show loop: a show whose feed resolution failed contributes
nothing (`continue`); results are concatenated in scope order. -/
def searchShowsGo (gfe : Str → Option (List EpisodeData))
    (keep : EpisodeData → Except PyErr Bool) :
    List Str → Except PyErr (List EpisodeData)
  | [] => .ok []
  | s :: rest =>
    match (match gfe s with
           | none => (.ok [] : Except PyErr (List EpisodeData))
           | some es => filterEpisodes keep es) with
    | .error er => .error er
    | .ok here =>
      match searchShowsGo gfe keep rest with
      | .error er => .error er
      | .ok there => .ok (here ++ there)

/-- The records of one show as the episode loop sees them. -/
def episodesOf (gf : Str → Option (List XmlItem)) (s : Str) :
    Option (List EpisodeData) :=
  (gf s).map fun items => items.map (parseEpisode s)

/-- `PodcastRSSParser.search_episodes`.  `gf` resolves a show name to its
parsed feed's item list (`_get_feed`), `shows` is the configured show list
(`get_shows()` order). -/
def searchEpisodes (gf : Str → Option (List XmlItem)) (shows : List Str)
    (q : Query) : Except PyErr (List EpisodeData) :=
  if !queryTruthy q then
    .error (.valueError "At least one search parameter must be provided".data)
  else
    searchShowsGo (episodesOf gf)
      (keepEpisode (sinceDtOf q) (beforeDtOf q) q.hosts q.text_search)
      (scopedShows q shows)

/-! ## `get_episode` -/

/-- Does the entry's `<guid>` text equal the query string?  (`None == s`
is `False` in Python.) -/
def guidMatch (ep : Str) (it : XmlItem) : Bool :=
  match it.guid with
  | some el =>
    match el.text with
    | some t => t = ep
    | none => false
  | none => false

/-- Does the entry's namespaced episode-number element's text equal the
query string? -/
def epNumMatch (ep : Str) (it : XmlItem) : Bool :=
  match it.episodeNum with
  | some el =>
    match el.text with
    | some t => t = ep
    | none => false
  | none => false

/-- The item loop of `get_episode`: per entry, the guid check runs first,
then the episode-number check; the first entry passing either wins. -/
def findEpisodeItem (ep : Str) : List XmlItem → Option XmlItem
  | [] => none
  | it :: rest =>
    if guidMatch ep it then some it
    else if epNumMatch ep it then some it
    else findEpisodeItem ep rest

/-- `PodcastRSSParser.get_episode`. -/
def getEpisode (gf : Str → Option (List XmlItem)) (shw ep : Str) :
    Option EpisodeData :=
  match gf shw with
  | none => none
  | some items => (findEpisodeItem ep items).map (parseEpisode shw)

/-! ## The feed cache (`_get_feed`)

The parser instance's mutable state is its configured `feeds` mapping and
the `_cached_feeds` dictionary.  The fetch-and-parse collaborator (HTTP or
file read plus `etree.fromstring`) is modelled as an oracle value supplied
per call: `some doc` is a successful fetch-and-parse of the current source
content, `none` is any raised fetch/parse exception.  `getFeedStep` is one
`_get_feed` call; it also reports how many collaborator invocations (0 or
1) the call made.  The cache dictionary is an association list; entries
are inserted at the front, which has the same lookup behaviour as the
Python dict insert since a key is only ever inserted when absent. -/

/-- A parsed feed document: its `<item>` elements. -/
abbrev FeedDoc := List XmlItem

/-- The mutable state of a `PodcastRSSParser` instance. -/
structure ParserState where
  feeds : List (Str × Str)
  cached : List (Str × FeedDoc)
deriving DecidableEq

/-- Association-list lookup (Python `dict` access). -/
def alookup {β : Type} (k : Str) : List (Str × β) → Option β
  | [] => none
  | (a, b) :: rest => if a = k then some b else alookup k rest

/-- One `_get_feed(show)` call: result, new state, and the number of
fetch-collaborator invocations made (0 or 1). -/
def getFeedStep (st : ParserState) (shw : Str) (fetched : Option FeedDoc) :
    Option FeedDoc × ParserState × Nat :=
  if (alookup shw st.feeds).isNone then (none, st, 0)
  else
    match alookup shw st.cached with
    | some doc => (some doc, st, 0)
    | none =>
      match fetched with
      | some doc => (some doc, { st with cached := (shw, doc) :: st.cached }, 1)
      | none => (none, st, 1)

/-- A sequence of `_get_feed` calls for one show, each with the collaborator
outcome that call would see; returns all results, the final state, and the
total number of collaborator invocations. -/
def runLookups (st : ParserState) (shw : Str) :
    List (Option FeedDoc) → List (Option FeedDoc) × ParserState × Nat
  | [] => ([], st, 0)
  | f :: fs =>
    let step := getFeedStep st shw f
    let rest := runLookups step.2.1 shw fs
    (step.1 :: rest.1, rest.2.1, step.2.2 + rest.2.2)

/-! ## The tool boundary (`podcast_mcp/server.py`)

`server.search_episodes` calls the engine, paginates with Python list
slicing, and converts exceptions to an error dictionary. -/

/-- Python list slicing `l[a:b]`: negative indices count from the end,
then both are clamped to `[0, len]`. -/
def pyIdx (n : Nat) (x : Int) : Nat :=
  if x < 0 then (x + n).toNat else min x.toNat n

/-- Python `l[a:b]`. -/
def pySlice {α : Type} (l : List α) (a b : Int) : List α :=
  (l.drop (pyIdx l.length a)).take (pyIdx l.length b - pyIdx l.length a)

/-- The value returned by the `search_episodes` tool: either the episodes
with the pagination dictionary, or an error dictionary. -/
inductive ToolResult where
  | ok (episodes : List EpisodeData) (total : Nat) (page per_page total_pages : Int)
  | error (msg : Str)
deriving DecidableEq

/-- `podcast_mcp.server.search_episodes` (the FastMCP tool).  `show_name`
is a required argument there; `page` and `per_page` default to 1 and 5. -/
def serverSearch (gf : Str → Option (List XmlItem)) (shows : List Str)
    (show_name : Str) (since_date before_date : Option Str)
    (hosts : Option (List Str)) (text_search : Option Str)
    (page per_page : Int) : ToolResult :=
  match searchEpisodes gf shows
      ⟨some show_name, since_date, before_date, hosts, text_search⟩ with
  | .error (.valueError msg) => .error msg
  | .error .attributeError =>
    .error ("Search failed: NoneType object has no attribute lower".data)
  | .ok results =>
    let total := results.length
    let total_pages : Int :=
      if per_page > 0 then Int.fdiv ((total : Int) + per_page - 1) per_page else 0
    let start := (page - 1) * per_page
    .ok (pySlice results start (start + per_page)) total page per_page total_pages

/-- The episodes component of a tool result. -/
def toolEpisodes : ToolResult → Option (List EpisodeData)
  | .ok eps _ _ _ _ => some eps
  | .error _ => none

/-! ## Concrete fixtures

Small concrete feeds used to instantiate the theorems below (witnesses and
counterexamples). -/

/-- An element with the given text. -/
def elT (t : String) : Option XmlElem := some ⟨some t.data⟩

/-- A present element whose text node is missing (lxml `.text` = `None`). -/
def noTextElem : Option XmlElem := some ⟨none⟩

/-- An item with only the simple fields populated. -/
def itemPlain (title pub epn guid : Option XmlElem) : XmlItem :=
  ⟨title, guid, none, pub, none, none, epn, [], [], [], none⟩

/-- The show name used by the fixtures. -/
def showS : Str := "S".data

/-- An item matching query `"42"` only through its episode-number element. -/
def itemEpNum42 : XmlItem :=
  itemPlain (elT "A") (elT "Sun, 05 Oct 2025 19:25:37 -0700") (elT "42") none

/-- An item matching query `"42"` through its guid; its date is unparseable. -/
def itemGuid42 : XmlItem :=
  itemPlain (elT "B") (elT "garbage date") none (elT "42")

/-- A feed for show `showS` containing the two items above, in that order. -/
def gfS : Str → Option (List XmlItem) :=
  fun s => if s = showS then some [itemEpNum42, itemGuid42] else none

/-- Twelve items titled `"0"` .. `"11"`. -/
def items12 : List XmlItem :=
  (List.range 12).map fun i => itemPlain (elT (toString i)) none none none

/-- A feed for show `showS` with the twelve items. -/
def gf12 : Str → Option (List XmlItem) :=
  fun s => if s = showS then some items12 else none

/-- The search records of the twelve-item feed. -/
def eps12 : List EpisodeData := items12.map (parseEpisode showS)

/-- Two items titled `"X"` and `"Y"`. -/
def itemX : XmlItem := itemPlain (elT "X") none none none

/-- Second of the two items. -/
def itemY : XmlItem := itemPlain (elT "Y") none none none

/-- A feed for show `showS` with the two items `itemX`, `itemY`. -/
def gf2 : Str → Option (List XmlItem) :=
  fun s => if s = showS then some [itemX, itemY] else none

/-- A parser state configured with show `showS` and an empty cache. -/
def st0 : ParserState := ⟨[(showS, "http://example/feed".data)], []⟩

/-- A one-item feed document for the cache fixtures. -/
def doc1 : FeedDoc := [itemX]

/-- A different feed document (the source after it changed). -/
def doc2 : FeedDoc := [itemY]

/-! ## Date-layout renderers (for the date-format claim)

The spec's "ten layouts of the fixed priority list" are formalised as an
inductive of layouts with a canonical renderer (zero-padded numeric
fields, C-locale weekday/month abbreviations, numeric offsets in the
colon-free `±HHMM` form shown in the source's comments).  `encodedInstant`
is the UTC-normalized wall-clock instant a rendered string denotes, with
UTC assumed for the zone-free layouts. -/

/-- Two-digit zero-padded decimal rendering. -/
def pad2 (n : Nat) : Str := [digitChar (n / 10), digitChar (n % 10)]

/-- Four-digit zero-padded decimal rendering. -/
def pad4 (n : Nat) : Str :=
  [digitChar (n / 1000), digitChar (n / 100 % 10), digitChar (n / 10 % 10),
   digitChar (n % 10)]

/-- C-locale weekday abbreviations (any weekday may accompany any date:
`strptime` does not cross-check it). -/
def wdAbbr : Fin 7 → Str
  | ⟨0, _⟩ => ['M','o','n']
  | ⟨1, _⟩ => ['T','u','e']
  | ⟨2, _⟩ => ['W','e','d']
  | ⟨3, _⟩ => ['T','h','u']
  | ⟨4, _⟩ => ['F','r','i']
  | ⟨5, _⟩ => ['S','a','t']
  | ⟨6, _⟩ => ['S','u','n']
  | ⟨n + 7, h⟩ => absurd h (by omega)

/-- C-locale month abbreviations, capitalised, for months 1..12. -/
def moAbbrU : Nat → Str
  | 1 => ['J','a','n']
  | 2 => ['F','e','b']
  | 3 => ['M','a','r']
  | 4 => ['A','p','r']
  | 5 => ['M','a','y']
  | 6 => ['J','u','n']
  | 7 => ['J','u','l']
  | 8 => ['A','u','g']
  | 9 => ['S','e','p']
  | 10 => ['O','c','t']
  | 11 => ['N','o','v']
  | 12 => ['D','e','c']
  | _ => []

/-- `HH:MM:SS`. -/
def renderTime (h mi s : Nat) : Str :=
  pad2 h ++ [':'] ++ pad2 mi ++ [':'] ++ pad2 s

/-- `±HHMM` (the colon-free offset form of the source's comments). -/
def renderOffset (pos : Bool) (oh om : Nat) : Str :=
  (if pos then '+' else '-') :: (pad2 oh ++ pad2 om)

/-- `YYYY-MM-DD`. -/
def isoDatePart (y m d : Nat) : Str :=
  pad4 y ++ ['-'] ++ pad2 m ++ ['-'] ++ pad2 d

/-- `Www, DD Mon YYYY HH:MM:SS` — the common RFC-2822 prefix. -/
def rfcPrefix (w : Fin 7) (y m d h mi s : Nat) : Str :=
  wdAbbr w ++ [','] ++ [' '] ++ pad2 d ++ [' '] ++ moAbbrU m ++ [' '] ++
    pad4 y ++ [' '] ++ renderTime h mi s

/-- The ten date layouts of `_parse_date`'s fixed priority list. -/
inductive DateLayout where
  | rfcOffset (w : Fin 7) (pos : Bool) (oh om : Nat)
  | rfcNamed (w : Fin 7) (zone : Str)
  | rfcBare (w : Fin 7)
  | isoOffset (pos : Bool) (oh om : Nat)
  | isoZulu
  | isoBare
  | spacedDateTime
  | dateOnly
  | dmyOffset (pos : Bool) (oh om : Nat)
  | dmyBare
deriving DecidableEq

/-- The canonical string of a layout at the given date components. -/
def renderLayout : DateLayout → Nat → Nat → Nat → Nat → Nat → Nat → Str
  | .rfcOffset w pos oh om, y, m, d, h, mi, s =>
    rfcPrefix w y m d h mi s ++ [' '] ++ renderOffset pos oh om
  | .rfcNamed w zone, y, m, d, h, mi, s =>
    rfcPrefix w y m d h mi s ++ [' '] ++ zone
  | .rfcBare w, y, m, d, h, mi, s => rfcPrefix w y m d h mi s
  | .isoOffset pos oh om, y, m, d, h, mi, s =>
    isoDatePart y m d ++ ['T'] ++ renderTime h mi s ++ renderOffset pos oh om
  | .isoZulu, y, m, d, h, mi, s =>
    isoDatePart y m d ++ ['T'] ++ renderTime h mi s ++ ['Z']
  | .isoBare, y, m, d, h, mi, s =>
    isoDatePart y m d ++ ['T'] ++ renderTime h mi s
  | .spacedDateTime, y, m, d, h, mi, s =>
    isoDatePart y m d ++ [' '] ++ renderTime h mi s
  | .dateOnly, y, m, d, _, _, _ => isoDatePart y m d
  | .dmyOffset pos oh om, y, m, d, h, mi, s =>
    pad2 d ++ [' '] ++ moAbbrU m ++ [' '] ++ pad4 y ++ [' '] ++
      renderTime h mi s ++ [' '] ++ renderOffset pos oh om
  | .dmyBare, y, m, d, _, _, _ =>
    pad2 d ++ [' '] ++ moAbbrU m ++ [' '] ++ pad4 y

/-- The real-world UTC offset (seconds) a named zone abbreviation denotes. -/
def namedZoneOffset (zone : Str) : Int :=
  if pyLower zone = "utc".data ∨ pyLower zone = "gmt".data then 0
  else if pyLower zone = "pdt".data then -25200
  else if pyLower zone = "pst".data then -28800
  else if pyLower zone = "edt".data then -14400
  else if pyLower zone = "est".data then -18000
  else 0

/-- `±(oh:om)` in seconds. -/
def signedOffset (pos : Bool) (oh om : Nat) : Int :=
  (if pos then 1 else -1) * ((oh * 3600 + om * 60 : Nat) : Int)

/-- The UTC offset a layout's string encodes (0 for the zone-free layouts,
per the "UTC assigned" rule). -/
def layoutOffset : DateLayout → Int
  | .rfcOffset _ pos oh om => signedOffset pos oh om
  | .rfcNamed _ zone => namedZoneOffset zone
  | .isoOffset pos oh om => signedOffset pos oh om
  | .dmyOffset pos oh om => signedOffset pos oh om
  | _ => 0

/-- Does the layout carry a time of day? -/
def layoutHasTime : DateLayout → Bool
  | .dateOnly => false
  | .dmyBare => false
  | _ => true

/-- The datetime value `_parse_date` ought to return for a rendered layout:
the components themselves, aware, at the layout's offset (midnight for the
date-only layouts). -/
def expectedDT (L : DateLayout) (y m d h mi s : Nat) : PyDateTime :=
  if layoutHasTime L then ⟨y, m, d, h, mi, s, some (layoutOffset L)⟩
  else ⟨y, m, d, 0, 0, 0, some (layoutOffset L)⟩

/-- The UTC-normalized wall-clock instant the rendered string encodes. -/
def encodedInstant (L : DateLayout) (y m d h mi s : Nat) : Int :=
  daysFromCivil y m d * 86400
    + (if layoutHasTime L then ((h * 3600 + mi * 60 + s : Nat) : Int) else 0)
    - layoutOffset L

/-- Well-formedness of the components for a layout: a real calendar date,
in-range time and offset fields; for the named-zone layout the zone must be
one of the names the reference environment's `%Z` accepts. -/
def layoutValid (L : DateLayout) (y m d h mi s : Nat) : Prop :=
  1 ≤ y ∧ y ≤ 9999 ∧ 1 ≤ m ∧ m ≤ 12 ∧ 1 ≤ d ∧ d ≤ daysInMonth y m ∧
  h ≤ 23 ∧ mi ≤ 59 ∧ s ≤ 59 ∧
  (match L with
   | .rfcOffset _ _ oh om => oh ≤ 23 ∧ om ≤ 59
   | .isoOffset _ oh om => oh ≤ 23 ∧ om ≤ 59
   | .dmyOffset _ oh om => oh ≤ 23 ∧ om ≤ 59
   | .rfcNamed _ zone => zone = "GMT".data ∨ zone = "UTC".data
   | _ => True)

/-- Is the head character a non-space (or the string empty)? -/
def headNonSpace : Str → Bool
  | [] => true
  | c :: _ => !isPySpace c

/-! # Theorems -/

/-! ## Helper lemmas -/

/-- Records surviving a successful episode loop are exactly the filter of the
input by the keep checks. -/
theorem filterEpisodes_ok {keep : EpisodeData → Except PyErr Bool}
    {es : List EpisodeData} {r : List EpisodeData}
    (h : filterEpisodes keep es = .ok r) :
    r = es.filter fun e =>
      match keep e with
      | .ok b => b
      | .error _ => false := by
  induction es generalizing r with
  | nil =>
    simp only [filterEpisodes] at h
    cases h
    rfl
  | cons e es ih =>
    simp only [filterEpisodes] at h
    cases hk : keep e with
    | error er => rw [hk] at h; cases h
    | ok b =>
      rw [hk] at h
      cases hrest : filterEpisodes keep es with
      | error er => rw [hrest] at h; cases h
      | ok r0 =>
        rw [hrest] at h
        cases h
        simp [List.filter, hk, ih hrest]
        cases b <;> simp

/-- A successful show loop returns the concatenation, in scope order, of each
show's filtered records (an unresolvable feed contributing nothing). -/
theorem searchShowsGo_ok {gfe : Str → Option (List EpisodeData)}
    {keep : EpisodeData → Except PyErr Bool} {shows : List Str}
    {res : List EpisodeData}
    (h : searchShowsGo gfe keep shows = .ok res) :
    res = (shows.map fun s =>
      match gfe s with
      | none => []
      | some es => es.filter fun e =>
          match keep e with
          | .ok b => b
          | .error _ => false).join := by
  induction shows generalizing res with
  | nil =>
    simp only [searchShowsGo] at h
    cases h
    rfl
  | cons s rest ih =>
    simp only [searchShowsGo] at h
    cases hg : gfe s with
    | none =>
      simp only [hg] at h
      cases hrest : searchShowsGo gfe keep rest with
      | error er => simp only [hrest] at h; exact (Except.noConfusion h)
      | ok there =>
        simp only [hrest] at h
        cases h
        simp [hg, ih hrest]
    | some es =>
      simp only [hg] at h
      cases hf : filterEpisodes keep es with
      | error er => simp only [hf] at h; exact (Except.noConfusion h)
      | ok here =>
        simp only [hf] at h
        cases hrest : searchShowsGo gfe keep rest with
        | error er => simp only [hrest] at h; exact (Except.noConfusion h)
        | ok there =>
          simp only [hrest] at h
          cases h
          simp [hg, ← filterEpisodes_ok hf, ih hrest]

/-- A successful search returns the join over the scoped shows of the
per-show filtered record lists. -/
theorem searchEpisodes_ok {gf : Str → Option (List XmlItem)} {shows : List Str}
    {q : Query} {res : List EpisodeData}
    (h : searchEpisodes gf shows q = .ok res) :
    res = ((scopedShows q shows).map fun s =>
      match episodesOf gf s with
      | none => []
      | some es => es.filter fun e =>
          match keepEpisode (sinceDtOf q) (beforeDtOf q) q.hosts q.text_search e with
          | .ok b => b
          | .error _ => false).join := by
  by_cases hq : queryTruthy q = true
  · rw [searchEpisodes, hq] at h
    exact searchShowsGo_ok h
  · rw [searchEpisodes] at h
    rw [Bool.not_eq_true] at hq
    rw [hq] at h
    cases h

/-- Membership of a list in a list of lists gives a sublist of the join. -/
theorem sublist_join_of_mem {α : Type} {l : List α} {L : List (List α)}
    (h : l ∈ L) : l.Sublist L.join := by
  induction L with
  | nil => cases h
  | cons x xs ih =>
    rcases List.mem_cons.mp h with h1 | h2
    · subst h1
      simpa using List.sublist_append_left l xs.join
    · exact (ih h2).trans (by simpa using List.sublist_append_right x xs.join)

/-- The item loop of `get_episode` is a first-match search for either
criterion (guid checked first inside each entry). -/
theorem findEpisodeItem_eq (ep : Str) (items : List XmlItem) :
    findEpisodeItem ep items
      = items.find? fun it => guidMatch ep it || epNumMatch ep it := by
  induction items with
  | nil => rfl
  | cons it rest ih =>
    cases hg : guidMatch ep it <;> cases he : epNumMatch ep it <;>
      simp [findEpisodeItem, List.find?, hg, he, ih]

/-- A cached show is served from the cache forever: no fetches, no state
change, always the same document (the feed-lookup guard must pass, which it
does for any configured show). -/
theorem runLookups_cached {st : ParserState} {s url : Str} {doc : FeedDoc}
    (hf : alookup s st.feeds = some url)
    (hc : alookup s st.cached = some doc) :
    ∀ fs : List (Option FeedDoc),
      runLookups st s fs = (fs.map fun _ => some doc, st, 0) := by
  intro fs
  induction fs with
  | nil => rfl
  | cons f fs ih =>
    simp [runLookups, getFeedStep, hf, hc, ih]

/-! ## C6 — empty query is an InvalidQuery error -/

/-- C6: a search call in which none of the five filter parameters (show,
since, before, hosts, text) is truthy fails with the ValueError
"At least one search parameter must be provided": the engine raises it as a
typed error, and the tool boundary (called with an empty show name and no
other filters) returns it as a structured error value rather than episodes
or an unrecovered fault. -/
theorem c6_empty_query_invalid :
    (∀ (gf : Str → Option (List XmlItem)) (shows : List Str) (q : Query),
       queryTruthy q = false →
       searchEpisodes gf shows q
         = .error (.valueError "At least one search parameter must be provided".data)) ∧
    (∀ (gf : Str → Option (List XmlItem)) (shows : List Str) (page pp : Int),
       serverSearch gf shows [] none none none none page pp
         = .error "At least one search parameter must be provided".data) := by
  constructor
  · intro gf shows q h
    simp [searchEpisodes, h]
  · intro gf shows page pp
    rfl

/-- Witness for C6 at a concrete query with all five parameters absent. -/
theorem c6_empty_query_invalid_witness :
    searchEpisodes gfS [showS] ⟨none, none, none, none, none⟩
      = .error (.valueError "At least one search parameter must be provided".data) :=
  c6_empty_query_invalid.1 gfS [showS] ⟨none, none, none, none, none⟩ rfl

/-! ## C4 — the feed cache invariant -/

/-- C4: for a configured show not yet cached, a first successful
fetch-and-parse makes exactly one collaborator invocation, stores the
document, and every subsequent lookup of that show returns the same cached
document with zero further collaborator invocations — whatever the source
would return now (`fs` values are ignored), for the rest of the process
lifetime; and a failed fetch-or-parse leaves the state unchanged (no cache
entry), so the next lookup retries from scratch. -/
theorem c4_feed_cache :
    (∀ (st : ParserState) (s url : Str) (doc : FeedDoc)
       (fs : List (Option FeedDoc)),
       alookup s st.feeds = some url →
       alookup s st.cached = none →
       runLookups st s (some doc :: fs)
         = (some doc :: fs.map (fun _ => some doc),
            { st with cached := (s, doc) :: st.cached }, 1)) ∧
    (∀ (st : ParserState) (s url : Str),
       alookup s st.feeds = some url →
       alookup s st.cached = none →
       getFeedStep st s none = (none, st, 1)) := by
  constructor
  · intro st s url doc fs hf hc
    have hstep : getFeedStep st s (some doc)
        = (some doc, { st with cached := (s, doc) :: st.cached }, 1) := by
      simp [getFeedStep, hf, hc]
    have hcached :
        alookup s ({ st with cached := (s, doc) :: st.cached } : ParserState).cached
          = some doc := by
      simp [alookup]
    simp [runLookups, hstep,
      @runLookups_cached ⟨st.feeds, (s, doc) :: st.cached⟩ s url doc hf hcached fs]
  · intro st s url hf hc
    simp [getFeedStep, hf, hc]

/-- Witness for C4: the concrete state `st0`, with the source changing from
`doc1` to `doc2` after the first fetch — the cached `doc1` is still served —
and a failing first fetch leaving the state unchanged. -/
theorem c4_feed_cache_witness :
    runLookups st0 showS [some doc1, some doc2, none]
      = ([some doc1, some doc1, some doc1],
         { st0 with cached := (showS, doc1) :: st0.cached }, 1) ∧
    getFeedStep st0 showS none = (none, st0, 1) :=
  ⟨c4_feed_cache.1 st0 showS "http://example/feed".data doc1 [some doc2, none]
     rfl rfl,
   c4_feed_cache.2 st0 showS "http://example/feed".data rfl rfl⟩

/-! ## C3 — `get_episode` matching precedence -/

/-- C3 counterexample: the feed `gfS` contains `itemGuid42` whose guid equals
`"42"`, and, before it in document order, `itemEpNum42` which matches `"42"`
only through its episode-number element.  `get_episode` returns the earlier,
episode-number-matched entry (title `"A"`), not the guid-matched one
(title `"B"`), refuting the claimed order-independent guid preference. -/
theorem c3_counterexample :
    guidMatch "42".data itemGuid42 = true ∧
    guidMatch "42".data itemEpNum42 = false ∧
    epNumMatch "42".data itemEpNum42 = true ∧
    getEpisode gfS showS "42".data = some (parseEpisode showS itemEpNum42) ∧
    (parseEpisode showS itemEpNum42).title = some "A".data ∧
    (parseEpisode showS itemGuid42).title = some "B".data := by
  refine ⟨rfl, rfl, rfl, rfl, rfl, rfl⟩

/-- C3 (amended): `get_episode` returns the first entry in document order
matching by unique-id or by namespaced episode-number (within a single
entry the unique-id check runs first); a unique-id match in a later entry
does not override an episode-number match in an earlier entry. -/
theorem c3_first_match_in_document_order :
    ∀ (gf : Str → Option (List XmlItem)) (s ep : Str),
      (gf s = none → getEpisode gf s ep = none) ∧
      (∀ items, gf s = some items →
        getEpisode gf s ep
          = (items.find? fun it => guidMatch ep it || epNumMatch ep it).map
              (parseEpisode s)) := by
  intro gf s ep
  constructor
  · intro h
    simp [getEpisode, h]
  · intro items h
    simp [getEpisode, h, findEpisodeItem_eq]

/-- Witness for C3 at the concrete feed `gfS`. -/
theorem c3_first_match_in_document_order_witness :
    getEpisode gfS showS "42".data
      = (([itemEpNum42, itemGuid42].find? fun it =>
            guidMatch "42".data it || epNumMatch "42".data it).map
          (parseEpisode showS)) :=
  (c3_first_match_in_document_order gfS showS "42".data).2
    [itemEpNum42, itemGuid42] rfl

/-! ## C8 — free-text field defaults -/

/-- C8 counterexample: a record extracted from an item whose `<title>`
element is present but carries no text has `title = None` (the lxml `.text`
passed through by `get_text`), not the empty string the claim requires. -/
theorem c8_counterexample :
    (parseEpisode showS (itemPlain noTextElem none none none)).title = none ∧
    (parseEpisode showS (itemPlain noTextElem none none none)).title ≠ some [] :=
  ⟨rfl, by decide⟩

/-- C8 (amended): every record is field-total by construction (the
`EpisodeData` dict literal carries every key), and `title`, `link` and
`duration` are the empty string when the corresponding element is absent —
but they are `None`, not the empty string, when the element is present
without text; `description` is the empty string in both cases. -/
theorem c8_field_defaults :
    ∀ (s : Str) (it : XmlItem),
      (it.title = none → (parseEpisode s it).title = some []) ∧
      (it.link = none → (parseEpisode s it).link = some []) ∧
      (it.duration = none → (parseEpisode s it).duration = some []) ∧
      (∀ el, it.title = some el → el.text = none →
        (parseEpisode s it).title = none) ∧
      (∀ el, it.link = some el → el.text = none →
        (parseEpisode s it).link = none) ∧
      (∀ el, it.duration = some el → el.text = none →
        (parseEpisode s it).duration = none) ∧
      (it.description = none → (parseEpisode s it).description = []) ∧
      (∀ el, it.description = some el → el.text = none →
        (parseEpisode s it).description = []) := by
  intro s it
  refine ⟨fun h => ?_, fun h => ?_, fun h => ?_,
          fun el h ht => ?_, fun el h ht => ?_, fun el h ht => ?_,
          fun h => ?_, fun el h ht => ?_⟩ <;>
    simp [parseEpisode, getTextOf, getCdataOf, h]
  all_goals simp [ht]

/-- Witness for C8 at concrete items with absent and text-free elements. -/
theorem c8_field_defaults_witness :
    (parseEpisode showS (itemPlain none none none none)).title = some [] ∧
    (parseEpisode showS (itemPlain noTextElem none none none)).title = none :=
  ⟨(c8_field_defaults showS (itemPlain none none none none)).1 rfl,
   (c8_field_defaults showS (itemPlain noTextElem none none none)).2.2.2.1
     ⟨none⟩ rfl rfl⟩

/-! ## C1 — unparseable episode dates under an active date filter -/

/-- C1 counterexample: with the since filter `"2025-10-07"` active (it
parses), the record of `itemGuid42` — whose `published_date` is the
unparseable `"garbage date"` — appears in the search results; it is not
excluded.  (`itemEpNum42`, whose date parses to an instant before the
since bound, is excluded, showing the filter is genuinely active.) -/
theorem c1_counterexample :
    sinceDtOf ⟨none, some "2025-10-07".data, none, none, none⟩ ≠ none ∧
    (parseEpisode showS itemGuid42).published_date = some "garbage date".data ∧
    parseDate "garbage date".data = none ∧
    searchEpisodes gfS [showS] ⟨none, some "2025-10-07".data, none, none, none⟩
      = .ok [parseEpisode showS itemGuid42] := by
  refine ⟨?_, rfl, rfl, rfl⟩
  decide

/-- C1 (amended): a record whose `published_at_raw` fails to normalize
(including an empty or missing date string) passes every active date
filter vacuously: whenever it also passes the host and text filters, it is
included in the search results, for any query — in particular for queries
whose since/before filters are active. -/
theorem c1_unparseable_date_included :
    ∀ (gf : Str → Option (List XmlItem)) (shows : List Str) (q : Query)
      (res : List EpisodeData) (s : Str) (items : List XmlItem) (it : XmlItem),
      searchEpisodes gf shows q = .ok res →
      s ∈ scopedShows q shows →
      gf s = some items →
      it ∈ items →
      (strTruthy (parseEpisode s it).published_date = false ∨
        (∃ p, (parseEpisode s it).published_date = some p ∧ parseDate p = none)) →
      hostKeep q.hosts (parseEpisode s it) = true →
      textKeep q.text_search (parseEpisode s it) = .ok true →
      parseEpisode s it ∈ res := by
  intro gf shows q res s items it hok hs hfeed hit hbad hhost htext
  have hdate : ∀ sdt : Option PyDateTime,
      sinceKeep sdt (parseEpisode s it) = true ∧
      beforeKeep sdt (parseEpisode s it) = true := by
    intro sdt
    rcases hbad with hfal | ⟨p, hp, hnone⟩
    · cases hpd : (parseEpisode s it).published_date with
      | none =>
        constructor <;> (cases sdt <;> simp [sinceKeep, beforeKeep, hpd])
      | some p =>
        rw [hpd] at hfal
        simp only [strTruthy, Bool.not_eq_true] at hfal
        have hemp : p.isEmpty = true := by
          cases hpe : p.isEmpty
          · rw [hpe] at hfal; cases hfal
          · rfl
        constructor <;> (cases sdt <;> simp [sinceKeep, beforeKeep, hpd, hemp])
    · constructor <;>
        (cases sdt <;> simp [sinceKeep, beforeKeep, hp, hnone])
  have hkeep : keepEpisode (sinceDtOf q) (beforeDtOf q) q.hosts q.text_search
      (parseEpisode s it) = .ok true := by
    rw [keepEpisode, (hdate (sinceDtOf q)).1, (hdate (beforeDtOf q)).2, hhost]
    simpa using htext
  have hres := searchEpisodes_ok hok
  rw [hres]
  rw [List.mem_join]
  refine ⟨(items.map (parseEpisode s)).filter fun e =>
    match keepEpisode (sinceDtOf q) (beforeDtOf q) q.hosts q.text_search e with
    | .ok b => b
    | .error _ => false, ?_, ?_⟩
  · have : episodesOf gf s = some (items.map (parseEpisode s)) := by
      simp [episodesOf, hfeed]
    exact List.mem_map.mpr ⟨s, hs, by simp [this]⟩
  · rw [List.mem_filter]
    exact ⟨List.mem_map_of_mem (parseEpisode s) hit, by simp [hkeep]⟩

/-- Witness for C1: the concrete unparseable-date record is in the results
of the concrete active-since-filter search. -/
theorem c1_unparseable_date_included_witness :
    parseEpisode showS itemGuid42 ∈ [parseEpisode showS itemGuid42] :=
  c1_unparseable_date_included gfS [showS]
    ⟨none, some "2025-10-07".data, none, none, none⟩
    [parseEpisode showS itemGuid42] showS [itemEpNum42, itemGuid42] itemGuid42
    rfl (by decide) rfl (by decide)
    (Or.inr ⟨"garbage date".data, rfl, rfl⟩) rfl rfl

/-! ## C9 — empty and whitespace-only date input -/

/-- C9 counterexample: the whitespace-only input `" "` does reach the
format loop and does take the unresolved-date warning path (the string is
truthy, so the early return is skipped; after stripping, every layout and
the fallback fail). -/
theorem c9_counterexample :
    parseDateTraced " ".data
      = ⟨none, true, true⟩ ∧ (" ".data : Str) ≠ [] := by
  refine ⟨rfl, by decide⟩

/-- C9 (amended): `_parse_date` is a total function (it never raises): the
empty input returns no value immediately, without entering the format loop
and without the warning path; a non-empty input whose content strips to
nothing (whitespace-only) also returns no value, but only after attempting
the format layouts and taking the unresolved-date warning path; and any
returned datetime is timezone-aware. -/
theorem c9_empty_and_whitespace :
    (parseDateTraced [] = ⟨none, false, false⟩) ∧
    (∀ s : Str, s ≠ [] → pyStrip s = [] → parseDateTraced s = ⟨none, true, true⟩) ∧
    (∀ (s : Str) (dt : PyDateTime), parseDate s = some dt → dt.tz ≠ none) := by
  refine ⟨rfl, ?_, ?_⟩
  · intro s hne hstrip
    rw [parseDateTraced, if_neg hne, hstrip]
    rfl
  · intro s dt h
    rw [parseDate, parseDateTraced] at h
    by_cases hs : s = []
    · rw [if_pos hs] at h; cases h
    · rw [if_neg hs] at h
      cases hp : (match tryFormats (fixOffsetColon (pyStrip s)) with
        | some dt => some dt
        | none => fallbackParse (fixOffsetColon (pyStrip s))) with
      | none => simp only [hp] at h; cases h
      | some dt0 =>
        simp only [hp] at h
        cases h
        cases htz : dt0.tz <;> simp [makeAware, htz]

/-- Witness for C9 at the whitespace-only input `" "` and a parsed value. -/
theorem c9_empty_and_whitespace_witness :
    parseDateTraced " ".data = ⟨none, true, true⟩ ∧
    (⟨2025, 10, 1, 0, 0, 0, some 0⟩ : PyDateTime).tz ≠ none :=
  ⟨c9_empty_and_whitespace.2.1 " ".data (by decide) rfl,
   c9_empty_and_whitespace.2.2 "2025-10-01".data ⟨2025, 10, 1, 0, 0, 0, some 0⟩ rfl⟩

/-! ## Slicing lemmas for the pagination claims -/

/-- A Python slice with non-negative start and length is the ordinary
drop-and-take window. -/
theorem pySlice_nonneg {α : Type} (l : List α) (a p : Int)
    (ha : 0 ≤ a) (hp : 0 ≤ p) :
    pySlice l a (a + p) = (l.drop a.toNat).take p.toNat := by
  rw [pySlice, pyIdx, pyIdx, if_neg (by omega), if_neg (by omega)]
  have htn : (a + p).toNat = a.toNat + p.toNat := by omega
  rw [htn]
  by_cases hA : a.toNat ≤ l.length
  · rw [Nat.min_eq_left hA, List.take_eq_take]
    simp only [List.length_drop]
    omega
  · have h1 : min a.toNat l.length = l.length := by omega
    have h2 : l.drop a.toNat = [] := List.drop_eq_nil_of_le (by omega)
    rw [h1, List.drop_length, h2]
    simp

/-- A Python slice ending at index 0 is empty. -/
theorem pySlice_end_zero {α : Type} (l : List α) (a : Int) :
    pySlice l a 0 = [] := by
  have h0 : pyIdx l.length 0 = 0 := by simp [pyIdx]
  rw [pySlice, h0]
  simp

/-- A Python slice with two negative indices (and enough elements) is the
window taken relative to the end of the list. -/
theorem pySlice_neg {α : Type} (l : List α) (a b : Int)
    (ha : a < 0) (hb : b < 0) (han : 0 ≤ a + l.length) (hab : a ≤ b) :
    pySlice l a b = (l.drop (a + l.length).toNat).take (b - a).toNat := by
  rw [pySlice, pyIdx, pyIdx, if_pos ha, if_pos hb]
  congr 1
  omega

/-! ## C10 — boundary pagination with `page < 1` -/

/-- C10 counterexample: twelve matching records, `page = 0`, `per_page = 5`.
The claim predicts the last five records; the code computes
`start_idx = -5`, `end_idx = 0`, and Python's `results[-5:0]` is the empty
list, so the tool returns an empty window (with `page` still reported as
`0`), not the last five records. -/
theorem c10_counterexample :
    searchEpisodes gf12 [showS] ⟨some showS, none, none, none, none⟩
      = .ok eps12 ∧
    eps12.length = 12 ∧
    serverSearch gf12 [showS] showS none none none none 0 5
      = .ok [] 12 0 5 3 :=
  ⟨rfl, rfl, rfl⟩

/-- C10 (amended): for the paginated boundary search with a non-empty result
list, a page value below 1 makes the start index negative, so both slice
indices are interpreted by Python's negative-index rules: `page = 0` yields
end index `0` and hence an empty window (for any `per_page`, with
pagination still reporting the given page); for `page ≤ -1` with
`per_page > 0` and at least `(1-page)*per_page` records, the window is the
`per_page`-record slice taken relative to the end of the result list —
not the first page, and not an error. -/
theorem c10_negative_page_slicing :
    (∀ (gf : Str → Option (List XmlItem)) (shows : List Str) (sn : Str)
       (sd bd : Option Str) (hs : Option (List Str)) (ts : Option Str)
       (pp : Int) (results : List EpisodeData),
       searchEpisodes gf shows ⟨some sn, sd, bd, hs, ts⟩ = .ok results →
       toolEpisodes (serverSearch gf shows sn sd bd hs ts 0 pp) = some []) ∧
    (∀ (gf : Str → Option (List XmlItem)) (shows : List Str) (sn : Str)
       (sd bd : Option Str) (hs : Option (List Str)) (ts : Option Str)
       (page pp : Int) (results : List EpisodeData),
       searchEpisodes gf shows ⟨some sn, sd, bd, hs, ts⟩ = .ok results →
       0 < pp → page ≤ -1 → (1 - page) * pp ≤ (results.length : Int) →
       toolEpisodes (serverSearch gf shows sn sd bd hs ts page pp)
         = some ((results.drop ((page - 1) * pp + results.length).toNat).take
                   pp.toNat)) := by
  constructor
  · intro gf shows sn sd bd hs ts pp results hok
    have hz : ((0 : Int) - 1) * pp + pp = 0 := by ring
    simp only [serverSearch, hok, hz, pySlice_end_zero, toolEpisodes]
  · intro gf shows sn sd bd hs ts page pp results hok hpp hpage hlen
    have hprod : 0 < (1 - page) * pp := by
      have : (0 : Int) < 1 - page := by omega
      exact mul_pos this hpp
    have heq : (page - 1) * pp = -((1 - page) * pp) := by ring
    have ha : (page - 1) * pp < 0 := by omega
    have hbneg : (page - 1) * pp + pp < 0 := by
      have h2 : (page - 1) * pp + pp = page * pp := by ring
      have h3 : page * pp < 0 :=
        mul_neg_of_neg_of_pos (by omega) hpp
      omega
    have han : 0 ≤ (page - 1) * pp + (results.length : Int) := by omega
    have hslice := pySlice_neg results ((page - 1) * pp) ((page - 1) * pp + pp)
      ha hbneg han (by omega)
    simp only [serverSearch, hok, toolEpisodes, hslice]
    congr 3
    omega

/-- Witness for C10: the twelve-record feed with `page = -1`, `per_page = 5`
returns the five records ending five before the end (records 3..7). -/
theorem c10_negative_page_slicing_witness :
    toolEpisodes (serverSearch gf12 [showS] showS none none none none (-1) 5)
      = some ((eps12.drop (((-1 : Int) - 1) * 5 + eps12.length).toNat).take
                (5 : Int).toNat) :=
  c10_negative_page_slicing.2 gf12 [showS] showS none none none none (-1) 5
    eps12 rfl (by decide) (by decide) (by decide)

/-! ## C5 — boundary pagination with `page ≥ 1` -/

/-- C5 counterexample: two matching records with `page = 1`,
`per_page = -1`.  The claimed window is the slice
`[(page-1)*per_page, (page-1)*per_page + per_page)` = `[0, -1)`, which is
empty as an index interval; the code instead computes Python's
`results[0:-1]`, a one-record window. -/
theorem c5_counterexample :
    searchEpisodes gf2 [showS] ⟨some showS, none, none, none, none⟩
      = .ok [parseEpisode showS itemX, parseEpisode showS itemY] ∧
    serverSearch gf2 [showS] showS none none none none 1 (-1)
      = .ok [parseEpisode showS itemX] 2 1 (-1) 0 ∧
    ([parseEpisode showS itemX] : List EpisodeData) ≠ [] :=
  ⟨rfl, rfl, by decide⟩

/-- C5 (amended): for every filtered result list of `n` records, every
`page ≥ 1` and every `per_page ≥ 0`, the boundary search returns
`total = n`, the given `page` and `per_page`, a `total_pages` that is
`ceil(n / per_page)` when `per_page > 0` (characterised by
`n ≤ total_pages * per_page < n + per_page`) and `0` when `per_page = 0`,
and an episodes window equal to the index slice
`[(page-1)*per_page, (page-1)*per_page + per_page)` of the results; a page
starting past the end yields an empty window, not an error.  (For
`per_page < 0` the window instead follows Python's negative-index slicing,
as the counterexample shows.) -/
theorem c5_pagination :
    ∀ (gf : Str → Option (List XmlItem)) (shows : List Str) (sn : Str)
      (sd bd : Option Str) (hs : Option (List Str)) (ts : Option Str)
      (page pp : Int) (results : List EpisodeData),
      searchEpisodes gf shows ⟨some sn, sd, bd, hs, ts⟩ = .ok results →
      1 ≤ page → 0 ≤ pp →
      ∃ tp : Int,
        serverSearch gf shows sn sd bd hs ts page pp
          = .ok ((results.drop (((page - 1) * pp).toNat)).take pp.toNat)
              results.length page pp tp ∧
        (0 < pp → (results.length : Int) ≤ tp * pp ∧
                  tp * pp < (results.length : Int) + pp) ∧
        (pp = 0 → tp = 0) ∧
        ((results.length : Int) ≤ (page - 1) * pp →
          (results.drop (((page - 1) * pp).toNat)).take pp.toNat = []) := by
  intro gf shows sn sd bd hs ts page pp results hok hpage hpp
  refine ⟨if 0 < pp then (((results.length : Int) + pp - 1).fdiv pp) else 0,
    ?_, ?_, ?_, ?_⟩
  · have ha : 0 ≤ (page - 1) * pp := mul_nonneg (by omega) hpp
    have hslice := pySlice_nonneg results ((page - 1) * pp) pp ha hpp
    simp only [serverSearch, hok, hslice]
  · intro hpos
    rw [if_pos hpos]
    set n : Int := (results.length : Int) with hn
    have hdm := Int.fdiv_add_fmod (n + pp - 1) pp
    have hr0 : 0 ≤ (n + pp - 1).fmod pp := Int.fmod_nonneg' _ (by omega)
    have hr1 : (n + pp - 1).fmod pp < pp := Int.fmod_lt_of_pos _ hpos
    constructor
    · nlinarith [hdm, hr0, hr1]
    · nlinarith [hdm, hr0, hr1]
  · intro h0
    rw [if_neg (by omega)]
  · intro hpast
    have : results.length ≤ ((page - 1) * pp).toNat := by omega
    rw [List.drop_eq_nil_of_le this]
    simp

/-- Witness for C5: the claim's own example — twelve matching records with
`per_page = 5` and `page = 3` (the two-record final window). -/
theorem c5_pagination_witness :
    ∃ tp : Int,
      serverSearch gf12 [showS] showS none none none none 3 5
        = .ok ((eps12.drop ((((3 : Int) - 1) * 5).toNat)).take (5 : Int).toNat)
            eps12.length 3 5 tp ∧
      (0 < (5 : Int) → (eps12.length : Int) ≤ tp * 5 ∧
                tp * 5 < (eps12.length : Int) + 5) ∧
      ((5 : Int) = 0 → tp = 0) ∧
      ((eps12.length : Int) ≤ ((3 : Int) - 1) * 5 →
        (eps12.drop ((((3 : Int) - 1) * 5).toNat)).take (5 : Int).toNat = []) :=
  c5_pagination gf12 [showS] showS none none none none 3 5 eps12 rfl
    (by decide) (by decide)

/-! ## C7 — output order preservation -/

/-- C7: search results preserve source order and show grouping and apply no
sort: (i) for records A, B of the same show with A before B in document
order (as a two-element sublist of the show's record sequence), if both
pass all active filters then A appears before B in the results (`[A, B]` is
a sublist of the results); (ii) a successful result list is exactly the
concatenation, in scoped-show order (the configured order when no show is
given, by `scopedShows`), of each show's records filtered in document
order — in particular no reordering by date occurs. -/
theorem c7_order_preservation :
    (∀ (gf : Str → Option (List XmlItem)) (shows : List Str) (q : Query)
       (res : List EpisodeData) (s : Str) (items : List XmlItem)
       (A B : EpisodeData),
       searchEpisodes gf shows q = .ok res →
       s ∈ scopedShows q shows →
       gf s = some items →
       [A, B].Sublist (items.map (parseEpisode s)) →
       keepEpisode (sinceDtOf q) (beforeDtOf q) q.hosts q.text_search A = .ok true →
       keepEpisode (sinceDtOf q) (beforeDtOf q) q.hosts q.text_search B = .ok true →
       [A, B].Sublist res) ∧
    (∀ (gf : Str → Option (List XmlItem)) (shows : List Str) (q : Query)
       (res : List EpisodeData),
       searchEpisodes gf shows q = .ok res →
       res = ((scopedShows q shows).map fun s =>
         match episodesOf gf s with
         | none => []
         | some es => es.filter fun e =>
             match keepEpisode (sinceDtOf q) (beforeDtOf q) q.hosts q.text_search e with
             | .ok b => b
             | .error _ => false).join) := by
  constructor
  · intro gf shows q res s items A B hok hs hfeed hsub hA hB
    have hres := searchEpisodes_ok hok
    set pred : EpisodeData → Bool := fun e =>
      match keepEpisode (sinceDtOf q) (beforeDtOf q) q.hosts q.text_search e with
      | .ok b => b
      | .error _ => false with hpred
    have hpA : pred A = true := by simp [hpred, hA]
    have hpB : pred B = true := by simp [hpred, hB]
    have hfilt : [A, B].filter pred = [A, B] := by
      simp [List.filter, hpA, hpB]
    have hsub2 : [A, B].Sublist ((items.map (parseEpisode s)).filter pred) := by
      rw [← hfilt]
      exact hsub.filter pred
    have hmem : ((items.map (parseEpisode s)).filter pred)
        ∈ (scopedShows q shows).map fun t =>
          match episodesOf gf t with
          | none => []
          | some es => es.filter pred := by
      refine List.mem_map.mpr ⟨s, hs, ?_⟩
      simp [episodesOf, hfeed]
    rw [hres]
    exact hsub2.trans (sublist_join_of_mem hmem)
  · intro gf shows q res hok
    exact searchEpisodes_ok hok

/-- Witness for C7: in the concrete two-item feed both records pass the
(filter-free apart from show scope) query and appear in source order. -/
theorem c7_order_preservation_witness :
    [parseEpisode showS itemX, parseEpisode showS itemY].Sublist
      [parseEpisode showS itemX, parseEpisode showS itemY] :=
  c7_order_preservation.1 gf2 [showS] ⟨some showS, none, none, none, none⟩
    [parseEpisode showS itemX, parseEpisode showS itemY] showS [itemX, itemY]
    (parseEpisode showS itemX) (parseEpisode showS itemY)
    rfl (by decide) rfl (List.Sublist.refl _) rfl rfl

/-! ## Character and token lemmas for the date-format claim -/

/-- Facts about decimal digit characters. -/
theorem digitChar_facts (n : Nat) (h : n ≤ 9) :
    isDigitC (digitChar n) = true ∧ digitVal (digitChar n) = n ∧
    lcChar (digitChar n) = digitChar n ∧ isPySpace (digitChar n) = false ∧
    digitChar n ≠ '+' ∧ digitChar n ≠ '-' ∧ digitChar n ≠ ':' := by
  interval_cases n <;>
    exact ⟨rfl, rfl, rfl, rfl, by decide, by decide, by decide⟩

/-- Lower-casing leaves a digit character unchanged. -/
theorem lcChar_digit {c : Char} (h : isDigitC c = true) : lcChar c = c := by
  rw [lcChar, if_neg]
  simp only [isDigitC, Bool.and_eq_true, decide_eq_true_eq] at h
  omega

/-- `listIndexOf` misses every list of names that all start with a
non-digit when the key starts with a digit. -/
theorem listIndexOf_none_of_digit_head {c1 : Char} (k2 k3 : Char)
    (h : isDigitC c1 = true) (names : List Str)
    (hn : ∀ nm ∈ names, ∃ hd tl, nm = hd :: tl ∧ isDigitC hd = false) :
    listIndexOf [c1, k2, k3] names = none := by
  induction names with
  | nil => rfl
  | cons nm ns ih =>
    obtain ⟨hd, tl, hnm, hdig⟩ := hn nm (List.mem_cons_self nm ns)
    have hne : nm ≠ [c1, k2, k3] := by
      rw [hnm]
      intro he
      have : hd = c1 := by injection he
      rw [this, h] at hdig
      cases hdig
    rw [listIndexOf, if_neg hne,
      ih fun nm hm => hn nm (List.mem_cons_of_mem _ hm)]
    rfl

/-- Each weekday name starts with a letter. -/
theorem wdNames_heads :
    ∀ nm ∈ wdNames, ∃ hd tl, nm = hd :: tl ∧ isDigitC hd = false := by
  intro nm hm
  fin_cases hm <;> exact ⟨_, _, rfl, rfl⟩

/-- Each month name starts with a letter. -/
theorem moNames_heads :
    ∀ nm ∈ moNames, ∃ hd tl, nm = hd :: tl ∧ isDigitC hd = false := by
  intro nm hm
  fin_cases hm <;> exact ⟨_, _, rfl, rfl⟩

/-- A three-letter-name directive fails on a digit-headed input. -/
theorem readName3_digit_head {c1 : Char} (c2 c3 : Char) (r : Str)
    (h : isDigitC c1 = true)
    (names : List Str)
    (hn : ∀ nm ∈ names, ∃ hd tl, nm = hd :: tl ∧ isDigitC hd = false) :
    readName3 names (c1 :: c2 :: c3 :: r) = none := by
  rw [readName3, lcChar_digit h,
    listIndexOf_none_of_digit_head (lcChar c2) (lcChar c3) h names hn]

/-- A two-digit zero-padded field is consumed whole by `readNum12` when the
two-digit alternative accepts its value. -/
theorem readNum12_pad2 (ok2 ok1 : Nat → Bool) (v : Nat) (hv : v ≤ 99)
    (h2 : ok2 v = true) (r : Str) :
    readNum12 ok2 ok1 (pad2 v ++ r) = some (v, r) := by
  obtain ⟨d1, e1, -⟩ := digitChar_facts (v / 10) (by omega)
  obtain ⟨d2, e2, -⟩ := digitChar_facts (v % 10) (by omega)
  have hval : digitVal (digitChar (v / 10)) * 10 + digitVal (digitChar (v % 10))
      = v := by
    rw [e1, e2]; omega
  simp [pad2, readNum12, d1, d2, hval, h2]

/-- A four-digit zero-padded year is consumed whole by `readYear4`. -/
theorem readYear4_pad4 (y : Nat) (hy : y ≤ 9999) (r : Str) :
    readYear4 (pad4 y ++ r) = some (y, r) := by
  obtain ⟨d1, e1, -⟩ := digitChar_facts (y / 1000) (by omega)
  obtain ⟨d2, e2, -⟩ := digitChar_facts (y / 100 % 10) (by omega)
  obtain ⟨d3, e3, -⟩ := digitChar_facts (y / 10 % 10) (by omega)
  obtain ⟨d4, e4, -⟩ := digitChar_facts (y % 10) (by omega)
  have hval : digitVal (digitChar (y / 1000)) * 1000
      + digitVal (digitChar (y / 100 % 10)) * 100
      + digitVal (digitChar (y / 10 % 10)) * 10
      + digitVal (digitChar (y % 10)) = y := by
    rw [e1, e2, e3, e4]; omega
  simp [pad4, readYear4, d1, d2, d3, d4, hval]

/-- `readYear4` fails when the third character is a space. -/
theorem readYear4_space3 (a b : Char) (r : Str) :
    readYear4 (a :: b :: ' ' :: r) = none := by
  cases r with
  | nil => rfl
  | cons c r2 =>
    have : isDigitC ' ' = false := rfl
    simp [readYear4, this]

/-- The weekday directive consumes a rendered weekday abbreviation. -/
theorem readWd_abbr (w : Fin 7) (r : Str) :
    readName3 wdNames (wdAbbr w ++ r) = some (w.val, r) := by
  match w with
  | ⟨0, _⟩ => rfl
  | ⟨1, _⟩ => rfl
  | ⟨2, _⟩ => rfl
  | ⟨3, _⟩ => rfl
  | ⟨4, _⟩ => rfl
  | ⟨5, _⟩ => rfl
  | ⟨6, _⟩ => rfl

/-- The month directive consumes a rendered month abbreviation. -/
theorem readMonName_abbr (m : Nat) (h1 : 1 ≤ m) (h2 : m ≤ 12) (r : Str) :
    readMonName (moAbbrU m ++ r) = some (m, r) := by
  interval_cases m <;> rfl

/-- A literal reader consumes its own character. -/
theorem readLitCI_self (c : Char) (r : Str) : readLitCI c (c :: r) = some r := by
  simp [readLitCI]

/-- A single rendered space is consumed by `\s+` when the next character is
not whitespace. -/
theorem readWs1_single (r : Str) (h : headNonSpace r = true) :
    readWs1 (' ' :: r) = some r := by
  cases r with
  | nil => rfl
  | cons c r2 =>
    simp only [headNonSpace, Bool.not_eq_eq_eq_not, Bool.not_true] at h
    simp [readWs1, List.dropWhile_cons, h, show isPySpace ' ' = true from rfl]

/-- A `pad2`-headed string starts with a non-space. -/
theorem headNonSpace_pad2 (v : Nat) (hv : v ≤ 99) (r : Str) :
    headNonSpace (pad2 v ++ r) = true := by
  obtain ⟨-, -, -, hsp, -⟩ := digitChar_facts (v / 10) (by omega)
  simp [pad2, headNonSpace, hsp]

/-- A `pad4`-headed string starts with a non-space. -/
theorem headNonSpace_pad4 (v : Nat) (hv : v ≤ 9999) (r : Str) :
    headNonSpace (pad4 v ++ r) = true := by
  obtain ⟨-, -, -, hsp, -⟩ := digitChar_facts (v / 1000) (by omega)
  simp [pad4, headNonSpace, hsp]

/-- A month-abbreviation-headed string starts with a non-space. -/
theorem headNonSpace_moAbbr (m : Nat) (h1 : 1 ≤ m) (h2 : m ≤ 12) (r : Str) :
    headNonSpace (moAbbrU m ++ r) = true := by
  interval_cases m <;> rfl

/-- A rendered time is consumed by `%H:%M:%S`. -/
theorem readTimeHMS_render (h mi s : Nat) (hh : h ≤ 23) (hmi : mi ≤ 59)
    (hs : s ≤ 59) (r : Str) :
    readTimeHMS (renderTime h mi s ++ r) = some ((h, mi, s), r) := by
  have hsplit : renderTime h mi s ++ r
      = pad2 h ++ (':' :: (pad2 mi ++ (':' :: (pad2 s ++ r)))) := by
    simp [renderTime]
  rw [readTimeHMS, hsplit, readHour,
    readNum12_pad2 _ _ h (by omega) (by simp [hh]) _]
  simp only [Option.some_bind]
  rw [readLitCI_self]
  simp only [Option.some_bind]
  rw [readMinute, readNum12_pad2 _ _ mi (by omega) (by simp [hmi]) _]
  simp only [Option.some_bind]
  rw [readLitCI_self]
  simp only [Option.some_bind]
  rw [readSecond, readNum12_pad2 _ _ s (by omega) (by simp; omega) _]
  rfl

/-- A `renderTime`-headed string starts with a non-space. -/
theorem headNonSpace_renderTime (h mi s : Nat) (hh : h ≤ 99) (r : Str) :
    headNonSpace (renderTime h mi s ++ r) = true := by
  have hsplit : renderTime h mi s ++ r
      = pad2 h ++ ([':'] ++ pad2 mi ++ [':'] ++ pad2 s ++ r) := by
    simp [renderTime]
  rw [hsplit]
  exact headNonSpace_pad2 h hh _

/-- A weekday-abbreviation-headed string starts with a non-space. -/
theorem headNonSpace_wdAbbr (w : Fin 7) (r : Str) :
    headNonSpace (wdAbbr w ++ r) = true := by
  match w with
  | ⟨0, _⟩ => rfl
  | ⟨1, _⟩ => rfl
  | ⟨2, _⟩ => rfl
  | ⟨3, _⟩ => rfl
  | ⟨4, _⟩ => rfl
  | ⟨5, _⟩ => rfl
  | ⟨6, _⟩ => rfl

/-- `str.strip()` of a string with non-space head and last is itself. -/
theorem pyStrip_eq_self {s : Str} (h1 : headNonSpace s = true)
    (h2 : headNonSpace s.reverse = true) : pyStrip s = s := by
  have e1 : s.dropWhile isPySpace = s := by
    cases s with
    | nil => rfl
    | cons c r =>
      simp only [headNonSpace, Bool.not_eq_eq_eq_not, Bool.not_true] at h1
      simp [List.dropWhile_cons, h1]
  have e2 : s.reverse.dropWhile isPySpace = s.reverse := by
    cases hs : s.reverse with
    | nil => rfl
    | cons c r =>
      rw [hs] at h2
      simp only [headNonSpace, Bool.not_eq_eq_eq_not, Bool.not_true] at h2
      simp [List.dropWhile_cons, h2]
  rw [pyStrip, e1, e2, List.reverse_reverse]

/-- The rendered RFC-2822 prefix is consumed by `%a, %d %b %Y %H:%M:%S`. -/
theorem readRfcCore_render (w : Fin 7) (y m d h mi s : Nat)
    (hm1 : 1 ≤ m) (hm2 : m ≤ 12) (hd1 : 1 ≤ d) (hd2 : d ≤ 31)
    (hy : y ≤ 9999) (hh : h ≤ 23) (hmi : mi ≤ 59) (hs : s ≤ 59) (r : Str) :
    readRfcCore (rfcPrefix w y m d h mi s ++ r)
      = some ((y, m, d, h, mi, s), r) := by
  have hsplit : rfcPrefix w y m d h mi s ++ r
      = wdAbbr w ++ (',' :: ' ' :: (pad2 d ++ (' ' :: (moAbbrU m ++
          (' ' :: (pad4 y ++ (' ' :: (renderTime h mi s ++ r)))))))) := by
    simp [rfcPrefix]
  rw [readRfcCore, hsplit, readWd_abbr]
  simp only [Option.some_bind]
  rw [readLitCI_self]
  simp only [Option.some_bind]
  rw [readWs1_single _ (headNonSpace_pad2 d (by omega) _)]
  simp only [Option.some_bind]
  rw [readDay, readNum12_pad2 _ _ d (by omega) (by simp [hd1, hd2]) _]
  simp only [Option.some_bind]
  rw [readWs1_single _ (headNonSpace_moAbbr m hm1 hm2 _)]
  simp only [Option.some_bind]
  rw [readMonName_abbr m hm1 hm2]
  simp only [Option.some_bind]
  rw [readWs1_single _ (headNonSpace_pad4 y hy _)]
  simp only [Option.some_bind]
  rw [readYear4_pad4 y hy]
  simp only [Option.some_bind]
  rw [readWs1_single _ (headNonSpace_renderTime h mi s (by omega) _)]
  simp only [Option.some_bind]
  rw [readTimeHMS_render h mi s hh hmi hs r]
  rfl

/-- The rendered ISO date part is consumed by `%Y-%m-%d`. -/
theorem readIsoDate_render (y m d : Nat) (hy : y ≤ 9999)
    (hm1 : 1 ≤ m) (hm2 : m ≤ 12) (hd1 : 1 ≤ d) (hd2 : d ≤ 31) (r : Str) :
    readIsoDate (isoDatePart y m d ++ r) = some ((y, m, d), r) := by
  have hsplit : isoDatePart y m d ++ r
      = pad4 y ++ ('-' :: (pad2 m ++ ('-' :: (pad2 d ++ r)))) := by
    simp [isoDatePart]
  rw [readIsoDate, hsplit, readYear4_pad4 y hy]
  simp only [Option.some_bind]
  rw [readLitCI_self]
  simp only [Option.some_bind]
  rw [readMonthNum, readNum12_pad2 _ _ m (by omega) (by simp [hm1, hm2]) _]
  simp only [Option.some_bind]
  rw [readLitCI_self]
  simp only [Option.some_bind]
  rw [readDay, readNum12_pad2 _ _ d (by omega) (by simp [hd1, hd2]) _]
  rfl

/-- The rendered day-month-year prefix is consumed by `%d %b %Y`. -/
theorem readDmyCore_render (y m d : Nat) (hy : y ≤ 9999)
    (hm1 : 1 ≤ m) (hm2 : m ≤ 12) (hd1 : 1 ≤ d) (hd2 : d ≤ 31) (r : Str) :
    readDmyCore (pad2 d ++ [' '] ++ moAbbrU m ++ [' '] ++ pad4 y ++ r)
      = some ((y, m, d), r) := by
  have hsplit : pad2 d ++ [' '] ++ moAbbrU m ++ [' '] ++ pad4 y ++ r
      = pad2 d ++ (' ' :: (moAbbrU m ++ (' ' :: (pad4 y ++ r)))) := by
    simp
  rw [readDmyCore, hsplit, readDay,
    readNum12_pad2 _ _ d (by omega) (by simp [hd1, hd2]) _]
  simp only [Option.some_bind]
  rw [readWs1_single _ (headNonSpace_moAbbr m hm1 hm2 _)]
  simp only [Option.some_bind]
  rw [readMonName_abbr m hm1 hm2]
  simp only [Option.some_bind]
  rw [readWs1_single _ (headNonSpace_pad4 y hy _)]
  simp only [Option.some_bind]
  rw [readYear4_pad4 y hy]
  rfl

/-- The colon-fixed rendered numeric offset is consumed by `%z`. -/
theorem readTz_offset (pos : Bool) (oh om : Nat) (hoh : oh ≤ 99)
    (hom : om ≤ 99) :
    readTz ((if pos then '+' else '-') :: (pad2 oh ++ [':'] ++ pad2 om))
      = some (signedOffset pos oh om, []) := by
  obtain ⟨dA, eA, -⟩ := digitChar_facts (oh / 10) (by omega)
  obtain ⟨dB, eB, -⟩ := digitChar_facts (oh % 10) (by omega)
  obtain ⟨dC2, eC, -⟩ := digitChar_facts (om / 10) (by omega)
  obtain ⟨dD, eD, -⟩ := digitChar_facts (om % 10) (by omega)
  have hsh : pad2 oh ++ [':'] ++ pad2 om
      = digitChar (oh / 10) :: digitChar (oh % 10) :: ':' ::
        digitChar (om / 10) :: digitChar (om % 10) :: [] := by
    simp [pad2]
  have hohv : digitVal (digitChar (oh / 10)) * 10 + digitVal (digitChar (oh % 10))
      = oh := by rw [eA, eB]; omega
  have homv : digitVal (digitChar (om / 10)) * 10 + digitVal (digitChar (om % 10))
      = om := by rw [eC, eD]; omega
  rw [hsh]
  cases pos <;>
    simp [readTz, readTzMM, readTzSS, dA, dB, dC2, dD, hohv, homv, signedOffset]

/-- `datetime` construction succeeds on valid components. -/
theorem mkDT_some (y m d h mi s : Nat) (tz : Option Int)
    (h1 : 1 ≤ y) (h2 : y ≤ 9999) (h3 : 1 ≤ m) (h4 : m ≤ 12) (h5 : 1 ≤ d)
    (h6 : d ≤ daysInMonth y m) (h7 : h ≤ 23) (h8 : mi ≤ 59) (h9 : s ≤ 59)
    (h10 : ∀ z, tz = some z → -86400 < z ∧ z < 86400) :
    mkDT y m d h mi s tz = some ⟨y, m, d, h, mi, s, tz⟩ := by
  have hok : dtOk y m d h mi s tz = true := by
    cases tz with
    | none =>
      simp only [dtOk, Bool.and_eq_true, decide_eq_true_eq, and_true]
      omega
    | some z =>
      obtain ⟨hz1, hz2⟩ := h10 z rfl
      simp only [dtOk, Bool.and_eq_true, decide_eq_true_eq]
      omega
  rw [mkDT, if_pos hok]

/-! ### Trailing-pattern facts for the offset-colon preprocessing -/

/-- A string ending in a rendered `±HHMM` offset is rewritten to the
`±HH:MM` form, and it ends in a digit. -/
theorem endOffset_facts (X : Str) (pos : Bool) (oh om : Nat)
    (hoh : oh ≤ 99) (hom : om ≤ 99) :
    fixOffsetColon (X ++ renderOffset pos oh om)
      = X ++ ((if pos then '+' else '-') :: (pad2 oh ++ [':'] ++ pad2 om)) ∧
    headNonSpace (X ++ renderOffset pos oh om).reverse = true := by
  obtain ⟨dA, -, -, -, -⟩ := digitChar_facts (oh / 10) (by omega)
  obtain ⟨dB, -, -, -, -⟩ := digitChar_facts (oh % 10) (by omega)
  obtain ⟨dC2, -, -, -, -⟩ := digitChar_facts (om / 10) (by omega)
  obtain ⟨dD, -, -, spD, -⟩ := digitChar_facts (om % 10) (by omega)
  have hrev : (X ++ renderOffset pos oh om).reverse
      = digitChar (om % 10) :: digitChar (om / 10) :: digitChar (oh % 10) ::
        digitChar (oh / 10) :: (if pos then '+' else '-') :: X.reverse := by
    cases pos <;> simp [renderOffset, pad2]
  constructor
  · simp only [fixOffsetColon]
    rw [hrev]
    cases pos <;> simp [dA, dB, dC2, dD, pad2]
  · rw [hrev]
    simp [headNonSpace, spD]

/-- A string ending in a rendered time is not rewritten, and ends in a digit. -/
theorem endTime_facts (X : Str) (h mi s : Nat) (hmi : mi ≤ 99) (hs : s ≤ 99) :
    fixOffsetColon (X ++ renderTime h mi s) = X ++ renderTime h mi s ∧
    headNonSpace (X ++ renderTime h mi s).reverse = true := by
  obtain ⟨-, -, -, -, pM, mM, -⟩ := digitChar_facts (mi / 10) (by omega)
  obtain ⟨-, -, -, spS, -⟩ := digitChar_facts (s % 10) (by omega)
  have hrev : (X ++ renderTime h mi s).reverse
      = digitChar (s % 10) :: digitChar (s / 10) :: ':' ::
        digitChar (mi % 10) :: digitChar (mi / 10) ::
        ((pad2 h ++ [':']).reverse ++ X.reverse) := by
    simp [renderTime, pad2]
  constructor
  · simp only [fixOffsetColon]
    rw [hrev]
    simp [pM, mM]
  · rw [hrev]
    simp [headNonSpace, spS]

/-- A string ending in `" "` plus a rendered four-digit year is not
rewritten, and ends in a digit. -/
theorem endYear_facts (X : Str) (y : Nat) (hy : y ≤ 9999) :
    fixOffsetColon (X ++ (' ' :: pad4 y)) = X ++ (' ' :: pad4 y) ∧
    headNonSpace (X ++ (' ' :: pad4 y)).reverse = true := by
  obtain ⟨-, -, -, spY, -⟩ := digitChar_facts (y % 10) (by omega)
  have hrev : (X ++ (' ' :: pad4 y)).reverse
      = digitChar (y % 10) :: digitChar (y / 10 % 10) :: digitChar (y / 100 % 10) ::
        digitChar (y / 1000) :: ' ' :: X.reverse := by
    simp [pad4]
  constructor
  · simp only [fixOffsetColon]
    rw [hrev]
    simp
  · rw [hrev]
    simp [headNonSpace, spY]

/-- A rendered ISO date-only string is not rewritten, and ends in a digit. -/
theorem endDateOnly_facts (y m d : Nat) (hm : m ≤ 99) (hd : d ≤ 99) :
    fixOffsetColon (isoDatePart y m d) = isoDatePart y m d ∧
    headNonSpace (isoDatePart y m d).reverse = true := by
  obtain ⟨-, -, -, -, pM, mM, -⟩ := digitChar_facts (m / 10) (by omega)
  obtain ⟨-, -, -, spD, -⟩ := digitChar_facts (d % 10) (by omega)
  have hrev : (isoDatePart y m d).reverse
      = digitChar (d % 10) :: digitChar (d / 10) :: '-' ::
        digitChar (m % 10) :: digitChar (m / 10) ::
        ('-' :: (pad4 y).reverse) := by
    simp [isoDatePart, pad2]
  constructor
  · simp only [fixOffsetColon]
    rw [hrev]
    simp [pM, mM]
  · rw [hrev]
    simp [headNonSpace, spD]

/-- A string ending in a rendered time plus literal `Z` is not rewritten,
and ends in a non-space. -/
theorem endZulu_facts (X : Str) (h mi s : Nat) :
    fixOffsetColon (X ++ renderTime h mi s ++ ['Z'])
      = X ++ renderTime h mi s ++ ['Z'] ∧
    headNonSpace (X ++ renderTime h mi s ++ ['Z']).reverse = true := by
  have hrev : (X ++ renderTime h mi s ++ ['Z']).reverse
      = 'Z' :: digitChar (s % 10) :: digitChar (s / 10) :: ':' ::
        digitChar (mi % 10) :: (digitChar (mi / 10) :: ':' ::
          digitChar (h % 10) :: digitChar (h / 10) :: X.reverse) := by
    simp [renderTime, pad2]
  constructor
  · simp only [fixOffsetColon]
    rw [hrev]
    simp [show isDigitC ':' = false from rfl, show isDigitC 'Z' = false from rfl]
  · rw [hrev]
    rfl

/-- A string ending in a rendered time plus a three-letter named zone
(`GMT` or `UTC`) is not rewritten, and ends in a non-space. -/
theorem endNamed_facts (X : Str) (h mi s : Nat) (zone : Str)
    (hz : zone = "GMT".data ∨ zone = "UTC".data) :
    fixOffsetColon (X ++ renderTime h mi s ++ (' ' :: zone))
      = X ++ renderTime h mi s ++ (' ' :: zone) ∧
    headNonSpace (X ++ renderTime h mi s ++ (' ' :: zone)).reverse = true := by
  obtain ⟨-, -, -, -, pS, mS, -⟩ := digitChar_facts (s % 10) (by omega)
  rcases hz with hz | hz <;> subst hz
  · have hrev : (X ++ renderTime h mi s ++ (' ' :: "GMT".data)).reverse
        = 'T' :: 'M' :: 'G' :: ' ' :: digitChar (s % 10) ::
          (digitChar (s / 10) :: ':' :: digitChar (mi % 10) ::
            digitChar (mi / 10) :: ':' :: digitChar (h % 10) ::
            digitChar (h / 10) :: X.reverse) := by
      simp [renderTime, pad2]
    constructor
    · simp only [fixOffsetColon]
      rw [hrev]
      simp [pS, mS, show isDigitC 'G' = false from rfl,
        show isDigitC 'M' = false from rfl]
    · rw [hrev]
      rfl
  · have hrev : (X ++ renderTime h mi s ++ (' ' :: "UTC".data)).reverse
        = 'C' :: 'T' :: 'U' :: ' ' :: digitChar (s % 10) ::
          (digitChar (s / 10) :: ':' :: digitChar (mi % 10) ::
            digitChar (mi / 10) :: ':' :: digitChar (h % 10) ::
            digitChar (h / 10) :: X.reverse) := by
      simp [renderTime, pad2]
    constructor
    · simp only [fixOffsetColon]
      rw [hrev]
      simp [pS, mS, show isDigitC 'U' = false from rfl,
        show isDigitC 'T' = false from rfl]
    · rw [hrev]
      rfl

/-- Every month has at most 31 days. -/
theorem daysInMonth_le_31 (y m : Nat) : daysInMonth y m ≤ 31 := by
  rw [daysInMonth]
  split
  · split <;> omega
  · split <;> omega

/-- An `rfcPrefix`-headed string starts with a non-space. -/
theorem headNonSpace_rfcPrefix (w : Fin 7) (y m d h mi s : Nat) (r : Str) :
    headNonSpace (rfcPrefix w y m d h mi s ++ r) = true := by
  have hsplit : rfcPrefix w y m d h mi s ++ r
      = wdAbbr w ++ ([','] ++ [' '] ++ pad2 d ++ [' '] ++ moAbbrU m ++ [' '] ++
          pad4 y ++ [' '] ++ renderTime h mi s ++ r) := by
    simp [rfcPrefix]
  rw [hsplit]
  exact headNonSpace_wdAbbr w _

/-- An `isoDatePart`-headed string starts with a non-space. -/
theorem headNonSpace_isoDate (y m d : Nat) (hy : y ≤ 9999) (r : Str) :
    headNonSpace (isoDatePart y m d ++ r) = true := by
  have hsplit : isoDatePart y m d ++ r
      = pad4 y ++ (['-'] ++ pad2 m ++ ['-'] ++ pad2 d ++ r) := by
    simp [isoDatePart]
  rw [hsplit]
  exact headNonSpace_pad4 y hy _

/-- The sign character of a rendered offset is not a space. -/
theorem headNonSpace_sign (pos : Bool) (r : Str) :
    headNonSpace ((if pos then '+' else '-') :: r) = true := by
  cases pos <;> rfl

/-- The signed offset of in-range fields respects the `timezone` bound. -/
theorem signedOffset_bound (pos : Bool) (oh om : Nat) (hoh : oh ≤ 23)
    (hom : om ≤ 59) :
    ∀ z : Int, (some (signedOffset pos oh om) : Option Int) = some z →
      -86400 < z ∧ z < 86400 := by
  intro z hz
  have : signedOffset pos oh om = z := by injection hz
  subst this
  cases pos <;> simp [signedOffset] <;> omega

/-- Layout 1 (`%a, %d %b %Y %H:%M:%S %z`): the rendered string parses to the
aware datetime at the rendered offset. -/
theorem parse_rfcOffset_render (w : Fin 7) (pos : Bool)
    (oh om y m d h mi s : Nat)
    (hy1 : 1 ≤ y) (hy2 : y ≤ 9999) (hm1 : 1 ≤ m) (hm2 : m ≤ 12)
    (hd1 : 1 ≤ d) (hd2 : d ≤ daysInMonth y m)
    (hh : h ≤ 23) (hmi : mi ≤ 59) (hs : s ≤ 59) (hoh : oh ≤ 23)
    (hom : om ≤ 59) :
    parseDate (renderLayout (.rfcOffset w pos oh om) y m d h mi s)
      = some ⟨y, m, d, h, mi, s, some (signedOffset pos oh om)⟩ := by
  have hd31 : d ≤ 31 := hd2.trans (daysInMonth_le_31 y m)
  have hshape : renderLayout (.rfcOffset w pos oh om) y m d h mi s
      = (rfcPrefix w y m d h mi s ++ [' ']) ++ renderOffset pos oh om := by
    simp [renderLayout]
  obtain ⟨hfix, hlast⟩ :=
    endOffset_facts (rfcPrefix w y m d h mi s ++ [' ']) pos oh om
      (by omega) (by omega)
  have hhead : headNonSpace
      ((rfcPrefix w y m d h mi s ++ [' ']) ++ renderOffset pos oh om) = true := by
    have : (rfcPrefix w y m d h mi s ++ [' ']) ++ renderOffset pos oh om
        = rfcPrefix w y m d h mi s ++ ([' '] ++ renderOffset pos oh om) := by
      simp
    rw [this]
    exact headNonSpace_rfcPrefix w y m d h mi s _
  have hstrip : pyStrip ((rfcPrefix w y m d h mi s ++ [' ']) ++
      renderOffset pos oh om)
      = (rfcPrefix w y m d h mi s ++ [' ']) ++ renderOffset pos oh om :=
    pyStrip_eq_self hhead hlast
  have hf1 : fmtRfcOffset ((rfcPrefix w y m d h mi s ++ [' ']) ++
      ((if pos then '+' else '-') :: (pad2 oh ++ [':'] ++ pad2 om)))
      = some ⟨y, m, d, h, mi, s, some (signedOffset pos oh om)⟩ := by
    have hsplit : (rfcPrefix w y m d h mi s ++ [' ']) ++
        ((if pos then '+' else '-') :: (pad2 oh ++ [':'] ++ pad2 om))
        = rfcPrefix w y m d h mi s ++
            (' ' :: ((if pos then '+' else '-') ::
              (pad2 oh ++ [':'] ++ pad2 om))) := by
      simp
    rw [fmtRfcOffset, hsplit,
      readRfcCore_render w y m d h mi s hm1 hm2 hd1 hd31 hy2 hh hmi hs _]
    simp only [Option.some_bind]
    rw [readWs1_single _ (headNonSpace_sign pos _)]
    simp only [Option.some_bind]
    rw [readTz_offset pos oh om (by omega) (by omega)]
    simp only [Option.some_bind]
    rw [if_pos trivial,
      mkDT_some y m d h mi s _ hy1 hy2 hm1 hm2 hd1 hd2 hh hmi hs
        (signedOffset_bound pos oh om hoh hom)]
  have hne : (rfcPrefix w y m d h mi s ++ [' ']) ++ renderOffset pos oh om
      ≠ [] := by
    intro hcontra
    have hl := congrArg List.length hcontra
    simp [rfcPrefix, renderTime, renderOffset, pad2, pad4] at hl
  rw [hshape, parseDate, parseDateTraced, if_neg hne]
  simp only [hstrip, hfix, tryFormats, hf1, Option.some_orElse]
  rfl

/-- The three RFC formats fail whenever the weekday name does not match. -/
theorem fmtRfc_none_of_name {t : Str} (hname : readName3 wdNames t = none) :
    fmtRfcOffset t = none ∧ fmtRfcNamed t = none ∧ fmtRfcBare t = none := by
  have hcore : readRfcCore t = none := by
    rw [readRfcCore, hname]
    rfl
  exact ⟨by rw [fmtRfcOffset, hcore]; rfl,
         by rw [fmtRfcNamed, hcore]; rfl,
         by rw [fmtRfcBare, hcore]; rfl⟩

/-- The five ISO-prefix formats fail whenever `%Y-%m-%d` does not match. -/
theorem fmtIso_none_of_isoDate {t : Str} (hiso : readIsoDate t = none) :
    fmtIsoOffset t = none ∧ fmtIsoZulu t = none ∧ fmtIsoBare t = none ∧
    fmtSpaced t = none ∧ fmtDateOnly t = none :=
  ⟨by rw [fmtIsoOffset, hiso]; rfl,
   by rw [fmtIsoZulu, hiso]; rfl,
   by rw [fmtIsoBare, hiso]; rfl,
   by rw [fmtSpaced, hiso]; rfl,
   by rw [fmtDateOnly, hiso]; rfl⟩

/-- The weekday directive fails on an ISO-date-headed string. -/
theorem readName3_isoDate (names : List Str)
    (hn : ∀ nm ∈ names, ∃ hd tl, nm = hd :: tl ∧ isDigitC hd = false)
    (y m d : Nat) (hy : y ≤ 9999) (r : Str) :
    readName3 names (isoDatePart y m d ++ r) = none := by
  have hsplit : isoDatePart y m d ++ r
      = digitChar (y / 1000) :: digitChar (y / 100 % 10) ::
        digitChar (y / 10 % 10) ::
        (digitChar (y % 10) :: '-' :: (pad2 m ++ ('-' :: (pad2 d ++ r)))) := by
    simp [isoDatePart, pad4]
  rw [hsplit]
  exact readName3_digit_head _ _ _ (digitChar_facts (y / 1000) (by omega)).1
    names hn

/-- The weekday directive fails on a `pad2`-then-space-headed string. -/
theorem readName3_pad2_space (names : List Str)
    (hn : ∀ nm ∈ names, ∃ hd tl, nm = hd :: tl ∧ isDigitC hd = false)
    (d : Nat) (hd : d ≤ 99) (r : Str) :
    readName3 names (pad2 d ++ (' ' :: r)) = none := by
  have hsplit : pad2 d ++ (' ' :: r)
      = digitChar (d / 10) :: digitChar (d % 10) :: ' ' :: r := by
    simp [pad2]
  rw [hsplit]
  exact readName3_digit_head _ _ _ (digitChar_facts (d / 10) (by omega)).1
    names hn

/-- `%Y-%m-%d` fails on a `pad2`-then-space-headed string. -/
theorem readIsoDate_pad2_space (d : Nat) (r : Str) :
    readIsoDate (pad2 d ++ (' ' :: r)) = none := by
  have hsplit : pad2 d ++ (' ' :: r)
      = digitChar (d / 10) :: digitChar (d % 10) :: ' ' :: r := by
    simp [pad2]
  rw [readIsoDate, hsplit, readYear4_space3]
  rfl

/-- Layout 2 (`%a, %d %b %Y %H:%M:%S %Z`): with the zone name GMT or UTC the
rendered string parses to the aware datetime at offset 0 (format 1 fails on
the named zone first). -/
theorem parse_rfcNamed_render (w : Fin 7) (zone : Str)
    (hz : zone = "GMT".data ∨ zone = "UTC".data)
    (y m d h mi s : Nat)
    (hy1 : 1 ≤ y) (hy2 : y ≤ 9999) (hm1 : 1 ≤ m) (hm2 : m ≤ 12)
    (hd1 : 1 ≤ d) (hd2 : d ≤ daysInMonth y m)
    (hh : h ≤ 23) (hmi : mi ≤ 59) (hs : s ≤ 59) :
    parseDate (renderLayout (.rfcNamed w zone) y m d h mi s)
      = some ⟨y, m, d, h, mi, s, some 0⟩ := by
  have hd31 : d ≤ 31 := hd2.trans (daysInMonth_le_31 y m)
  have hshape : renderLayout (.rfcNamed w zone) y m d h mi s
      = (wdAbbr w ++ [','] ++ [' '] ++ pad2 d ++ [' '] ++ moAbbrU m ++ [' '] ++
          pad4 y ++ [' ']) ++ renderTime h mi s ++ (' ' :: zone) := by
    simp [renderLayout, rfcPrefix]
  obtain ⟨hfix, hlast⟩ :=
    endNamed_facts (wdAbbr w ++ [','] ++ [' '] ++ pad2 d ++ [' '] ++
      moAbbrU m ++ [' '] ++ pad4 y ++ [' ']) h mi s zone hz
  have hback : (wdAbbr w ++ [','] ++ [' '] ++ pad2 d ++ [' '] ++ moAbbrU m ++
      [' '] ++ pad4 y ++ [' ']) ++ renderTime h mi s ++ (' ' :: zone)
      = rfcPrefix w y m d h mi s ++ (' ' :: zone) := by
    simp [rfcPrefix]
  have hhead : headNonSpace ((wdAbbr w ++ [','] ++ [' '] ++ pad2 d ++ [' '] ++
      moAbbrU m ++ [' '] ++ pad4 y ++ [' ']) ++ renderTime h mi s ++
      (' ' :: zone)) = true := by
    rw [hback]
    exact headNonSpace_rfcPrefix w y m d h mi s _
  have hstrip := pyStrip_eq_self hhead hlast
  have hzone_head : headNonSpace zone = true := by
    rcases hz with hz | hz <;> subst hz <;> rfl
  have hf1 : fmtRfcOffset ((wdAbbr w ++ [','] ++ [' '] ++ pad2 d ++ [' '] ++
      moAbbrU m ++ [' '] ++ pad4 y ++ [' ']) ++ renderTime h mi s ++
      (' ' :: zone)) = none := by
    rw [hback, fmtRfcOffset,
      readRfcCore_render w y m d h mi s hm1 hm2 hd1 hd31 hy2 hh hmi hs _]
    simp only [Option.some_bind]
    rw [readWs1_single _ hzone_head]
    simp only [Option.some_bind]
    rcases hz with hz | hz <;> subst hz <;> rfl
  have hf2 : fmtRfcNamed ((wdAbbr w ++ [','] ++ [' '] ++ pad2 d ++ [' '] ++
      moAbbrU m ++ [' '] ++ pad4 y ++ [' ']) ++ renderTime h mi s ++
      (' ' :: zone)) = some ⟨y, m, d, h, mi, s, some 0⟩ := by
    rw [hback, fmtRfcNamed,
      readRfcCore_render w y m d h mi s hm1 hm2 hd1 hd31 hy2 hh hmi hs _]
    simp only [Option.some_bind]
    rw [readWs1_single _ hzone_head]
    simp only [Option.some_bind]
    have hzn : readZoneName zone = some [] := by
      rcases hz with hz | hz <;> subst hz <;> rfl
    rw [hzn]
    simp only [Option.some_bind]
    rw [if_pos trivial,
      mkDT_some y m d h mi s _ hy1 hy2 hm1 hm2 hd1 hd2 hh hmi hs
        (by intro z hz0; injection hz0 with h0; omega)]
  have hne : (wdAbbr w ++ [','] ++ [' '] ++ pad2 d ++ [' '] ++ moAbbrU m ++
      [' '] ++ pad4 y ++ [' ']) ++ renderTime h mi s ++ (' ' :: zone) ≠ [] := by
    intro hcontra
    have hl := congrArg List.length hcontra
    simp [renderTime, pad2, pad4] at hl
  rw [hshape, parseDate, parseDateTraced, if_neg hne]
  simp only [hstrip, hfix, tryFormats, hf1, hf2, Option.none_orElse,
    Option.some_orElse]
  rfl

/-- Layout 3 (`%a, %d %b %Y %H:%M:%S`): the rendered string parses naive and
is then anchored to UTC. -/
theorem parse_rfcBare_render (w : Fin 7) (y m d h mi s : Nat)
    (hy1 : 1 ≤ y) (hy2 : y ≤ 9999) (hm1 : 1 ≤ m) (hm2 : m ≤ 12)
    (hd1 : 1 ≤ d) (hd2 : d ≤ daysInMonth y m)
    (hh : h ≤ 23) (hmi : mi ≤ 59) (hs : s ≤ 59) :
    parseDate (renderLayout (.rfcBare w) y m d h mi s)
      = some ⟨y, m, d, h, mi, s, some 0⟩ := by
  have hd31 : d ≤ 31 := hd2.trans (daysInMonth_le_31 y m)
  have hshape : renderLayout (.rfcBare w) y m d h mi s
      = (wdAbbr w ++ [','] ++ [' '] ++ pad2 d ++ [' '] ++ moAbbrU m ++ [' '] ++
          pad4 y ++ [' ']) ++ renderTime h mi s := by
    simp [renderLayout, rfcPrefix]
  obtain ⟨hfix, hlast⟩ :=
    endTime_facts (wdAbbr w ++ [','] ++ [' '] ++ pad2 d ++ [' '] ++
      moAbbrU m ++ [' '] ++ pad4 y ++ [' ']) h mi s (by omega) (by omega)
  have hback : (wdAbbr w ++ [','] ++ [' '] ++ pad2 d ++ [' '] ++ moAbbrU m ++
      [' '] ++ pad4 y ++ [' ']) ++ renderTime h mi s
      = rfcPrefix w y m d h mi s := by
    simp [rfcPrefix]
  have hhead : headNonSpace ((wdAbbr w ++ [','] ++ [' '] ++ pad2 d ++ [' '] ++
      moAbbrU m ++ [' '] ++ pad4 y ++ [' ']) ++ renderTime h mi s) = true := by
    rw [hback]
    have : rfcPrefix w y m d h mi s = rfcPrefix w y m d h mi s ++ [] := by simp
    rw [this]
    exact headNonSpace_rfcPrefix w y m d h mi s []
  have hstrip := pyStrip_eq_self hhead hlast
  have hcore : readRfcCore (rfcPrefix w y m d h mi s)
      = some ((y, m, d, h, mi, s), []) := by
    have := readRfcCore_render w y m d h mi s hm1 hm2 hd1 hd31 hy2 hh hmi hs []
    rwa [List.append_nil] at this
  have hf1 : fmtRfcOffset ((wdAbbr w ++ [','] ++ [' '] ++ pad2 d ++ [' '] ++
      moAbbrU m ++ [' '] ++ pad4 y ++ [' ']) ++ renderTime h mi s) = none := by
    rw [hback, fmtRfcOffset, hcore]
    rfl
  have hf2 : fmtRfcNamed ((wdAbbr w ++ [','] ++ [' '] ++ pad2 d ++ [' '] ++
      moAbbrU m ++ [' '] ++ pad4 y ++ [' ']) ++ renderTime h mi s) = none := by
    rw [hback, fmtRfcNamed, hcore]
    rfl
  have hf3 : fmtRfcBare ((wdAbbr w ++ [','] ++ [' '] ++ pad2 d ++ [' '] ++
      moAbbrU m ++ [' '] ++ pad4 y ++ [' ']) ++ renderTime h mi s)
      = some ⟨y, m, d, h, mi, s, none⟩ := by
    rw [hback, fmtRfcBare, hcore]
    simp only [Option.some_bind]
    rw [if_pos trivial,
      mkDT_some y m d h mi s none hy1 hy2 hm1 hm2 hd1 hd2 hh hmi hs
        (by intro z hz0; cases hz0)]
  have hne : (wdAbbr w ++ [','] ++ [' '] ++ pad2 d ++ [' '] ++ moAbbrU m ++
      [' '] ++ pad4 y ++ [' ']) ++ renderTime h mi s ≠ [] := by
    intro hcontra
    have hl := congrArg List.length hcontra
    simp [renderTime, pad2, pad4] at hl
  rw [hshape, parseDate, parseDateTraced, if_neg hne]
  simp only [hstrip, hfix, tryFormats, hf1, hf2, hf3, Option.none_orElse,
    Option.some_orElse]
  rfl

/-- Layout 4 (`%Y-%m-%dT%H:%M:%S%z`). -/
theorem parse_isoOffset_render (pos : Bool) (oh om y m d h mi s : Nat)
    (hy1 : 1 ≤ y) (hy2 : y ≤ 9999) (hm1 : 1 ≤ m) (hm2 : m ≤ 12)
    (hd1 : 1 ≤ d) (hd2 : d ≤ daysInMonth y m)
    (hh : h ≤ 23) (hmi : mi ≤ 59) (hs : s ≤ 59) (hoh : oh ≤ 23)
    (hom : om ≤ 59) :
    parseDate (renderLayout (.isoOffset pos oh om) y m d h mi s)
      = some ⟨y, m, d, h, mi, s, some (signedOffset pos oh om)⟩ := by
  have hd31 : d ≤ 31 := hd2.trans (daysInMonth_le_31 y m)
  have hshape : renderLayout (.isoOffset pos oh om) y m d h mi s
      = (isoDatePart y m d ++ ['T'] ++ renderTime h mi s) ++
          renderOffset pos oh om := by
    simp [renderLayout]
  obtain ⟨hfix, hlast⟩ :=
    endOffset_facts (isoDatePart y m d ++ ['T'] ++ renderTime h mi s) pos oh om
      (by omega) (by omega)
  have hhead : headNonSpace ((isoDatePart y m d ++ ['T'] ++
      renderTime h mi s) ++ renderOffset pos oh om) = true := by
    have : (isoDatePart y m d ++ ['T'] ++ renderTime h mi s) ++
        renderOffset pos oh om
        = isoDatePart y m d ++ (['T'] ++ renderTime h mi s ++
            renderOffset pos oh om) := by
      simp
    rw [this]
    exact headNonSpace_isoDate y m d hy2 _
  have hstrip := pyStrip_eq_self hhead hlast
  have hnamefix : readName3 wdNames ((isoDatePart y m d ++ ['T'] ++
      renderTime h mi s) ++ ((if pos then '+' else '-') ::
        (pad2 oh ++ [':'] ++ pad2 om))) = none := by
    have hsp : (isoDatePart y m d ++ ['T'] ++ renderTime h mi s) ++
        ((if pos then '+' else '-') :: (pad2 oh ++ [':'] ++ pad2 om))
        = isoDatePart y m d ++ (['T'] ++ renderTime h mi s ++
            ((if pos then '+' else '-') :: (pad2 oh ++ [':'] ++ pad2 om))) := by
      simp
    rw [hsp]
    exact readName3_isoDate wdNames wdNames_heads y m d hy2 _
  obtain ⟨hn1, hn2, hn3⟩ := fmtRfc_none_of_name hnamefix
  have hf4 : fmtIsoOffset ((isoDatePart y m d ++ ['T'] ++ renderTime h mi s) ++
      ((if pos then '+' else '-') :: (pad2 oh ++ [':'] ++ pad2 om)))
      = some ⟨y, m, d, h, mi, s, some (signedOffset pos oh om)⟩ := by
    have hsp : (isoDatePart y m d ++ ['T'] ++ renderTime h mi s) ++
        ((if pos then '+' else '-') :: (pad2 oh ++ [':'] ++ pad2 om))
        = isoDatePart y m d ++ ('T' :: (renderTime h mi s ++
            ((if pos then '+' else '-') :: (pad2 oh ++ [':'] ++ pad2 om)))) := by
      simp
    rw [fmtIsoOffset, hsp, readIsoDate_render y m d hy2 hm1 hm2 hd1 hd31 _]
    simp only [Option.some_bind]
    rw [readLitCI_self]
    simp only [Option.some_bind]
    rw [readTimeHMS_render h mi s hh hmi hs _]
    simp only [Option.some_bind]
    rw [readTz_offset pos oh om (by omega) (by omega)]
    simp only [Option.some_bind]
    rw [if_pos trivial,
      mkDT_some y m d h mi s _ hy1 hy2 hm1 hm2 hd1 hd2 hh hmi hs
        (signedOffset_bound pos oh om hoh hom)]
  have hne : (isoDatePart y m d ++ ['T'] ++ renderTime h mi s) ++
      renderOffset pos oh om ≠ [] := by
    intro hcontra
    have hl := congrArg List.length hcontra
    simp [isoDatePart, renderTime, renderOffset, pad2, pad4] at hl
  rw [hshape, parseDate, parseDateTraced, if_neg hne]
  simp only [hstrip, hfix, tryFormats, hn1, hn2, hn3, hf4, Option.none_orElse,
    Option.some_orElse]
  rfl

/-- Layout 5 (`%Y-%m-%dT%H:%M:%SZ`): the trailing `Z` is consumed by `%z`
in the higher-priority format 4, giving offset 0. -/
theorem parse_isoZulu_render (y m d h mi s : Nat)
    (hy1 : 1 ≤ y) (hy2 : y ≤ 9999) (hm1 : 1 ≤ m) (hm2 : m ≤ 12)
    (hd1 : 1 ≤ d) (hd2 : d ≤ daysInMonth y m)
    (hh : h ≤ 23) (hmi : mi ≤ 59) (hs : s ≤ 59) :
    parseDate (renderLayout .isoZulu y m d h mi s)
      = some ⟨y, m, d, h, mi, s, some 0⟩ := by
  have hd31 : d ≤ 31 := hd2.trans (daysInMonth_le_31 y m)
  have hshape : renderLayout .isoZulu y m d h mi s
      = (isoDatePart y m d ++ ['T']) ++ renderTime h mi s ++ ['Z'] := by
    simp [renderLayout]
  obtain ⟨hfix, hlast⟩ := endZulu_facts (isoDatePart y m d ++ ['T']) h mi s
  have hhead : headNonSpace ((isoDatePart y m d ++ ['T']) ++
      renderTime h mi s ++ ['Z']) = true := by
    have : (isoDatePart y m d ++ ['T']) ++ renderTime h mi s ++ ['Z']
        = isoDatePart y m d ++ (['T'] ++ renderTime h mi s ++ ['Z']) := by
      simp
    rw [this]
    exact headNonSpace_isoDate y m d hy2 _
  have hstrip := pyStrip_eq_self hhead hlast
  have hnamefix : readName3 wdNames ((isoDatePart y m d ++ ['T']) ++
      renderTime h mi s ++ ['Z']) = none := by
    have hsp : (isoDatePart y m d ++ ['T']) ++ renderTime h mi s ++ ['Z']
        = isoDatePart y m d ++ (['T'] ++ renderTime h mi s ++ ['Z']) := by
      simp
    rw [hsp]
    exact readName3_isoDate wdNames wdNames_heads y m d hy2 _
  obtain ⟨hn1, hn2, hn3⟩ := fmtRfc_none_of_name hnamefix
  have hf4 : fmtIsoOffset ((isoDatePart y m d ++ ['T']) ++
      renderTime h mi s ++ ['Z']) = some ⟨y, m, d, h, mi, s, some 0⟩ := by
    have hsp : (isoDatePart y m d ++ ['T']) ++ renderTime h mi s ++ ['Z']
        = isoDatePart y m d ++ ('T' :: (renderTime h mi s ++ ['Z'])) := by
      simp
    rw [fmtIsoOffset, hsp, readIsoDate_render y m d hy2 hm1 hm2 hd1 hd31 _]
    simp only [Option.some_bind]
    rw [readLitCI_self]
    simp only [Option.some_bind]
    rw [readTimeHMS_render h mi s hh hmi hs _]
    simp only [Option.some_bind]
    rw [show readTz ['Z'] = some (0, []) from rfl]
    simp only [Option.some_bind]
    rw [if_pos trivial,
      mkDT_some y m d h mi s _ hy1 hy2 hm1 hm2 hd1 hd2 hh hmi hs
        (by intro z hz0; injection hz0 with h0; omega)]
  have hne : (isoDatePart y m d ++ ['T']) ++ renderTime h mi s ++ ['Z']
      ≠ [] := by
    intro hcontra
    have hl := congrArg List.length hcontra
    simp [isoDatePart, renderTime, pad2, pad4] at hl
  rw [hshape, parseDate, parseDateTraced, if_neg hne]
  simp only [hstrip, hfix, tryFormats, hn1, hn2, hn3, hf4, Option.none_orElse,
    Option.some_orElse]
  rfl

/-- Layout 6 (`%Y-%m-%dT%H:%M:%S`): parses naive via format 6 (formats 4 and
5 fail at the missing zone suffix) and is anchored to UTC. -/
theorem parse_isoBare_render (y m d h mi s : Nat)
    (hy1 : 1 ≤ y) (hy2 : y ≤ 9999) (hm1 : 1 ≤ m) (hm2 : m ≤ 12)
    (hd1 : 1 ≤ d) (hd2 : d ≤ daysInMonth y m)
    (hh : h ≤ 23) (hmi : mi ≤ 59) (hs : s ≤ 59) :
    parseDate (renderLayout .isoBare y m d h mi s)
      = some ⟨y, m, d, h, mi, s, some 0⟩ := by
  have hd31 : d ≤ 31 := hd2.trans (daysInMonth_le_31 y m)
  have hshape : renderLayout .isoBare y m d h mi s
      = (isoDatePart y m d ++ ['T']) ++ renderTime h mi s := by
    simp [renderLayout]
  obtain ⟨hfix, hlast⟩ :=
    endTime_facts (isoDatePart y m d ++ ['T']) h mi s (by omega) (by omega)
  have hhead : headNonSpace ((isoDatePart y m d ++ ['T']) ++
      renderTime h mi s) = true := by
    have : (isoDatePart y m d ++ ['T']) ++ renderTime h mi s
        = isoDatePart y m d ++ (['T'] ++ renderTime h mi s) := by
      simp
    rw [this]
    exact headNonSpace_isoDate y m d hy2 _
  have hstrip := pyStrip_eq_self hhead hlast
  have hnamefix : readName3 wdNames ((isoDatePart y m d ++ ['T']) ++
      renderTime h mi s) = none := by
    have hsp : (isoDatePart y m d ++ ['T']) ++ renderTime h mi s
        = isoDatePart y m d ++ (['T'] ++ renderTime h mi s) := by
      simp
    rw [hsp]
    exact readName3_isoDate wdNames wdNames_heads y m d hy2 _
  obtain ⟨hn1, hn2, hn3⟩ := fmtRfc_none_of_name hnamefix
  have hsp6 : (isoDatePart y m d ++ ['T']) ++ renderTime h mi s
      = isoDatePart y m d ++ ('T' :: renderTime h mi s) := by
    simp
  have htime : readTimeHMS (renderTime h mi s) = some ((h, mi, s), []) := by
    have := readTimeHMS_render h mi s hh hmi hs []
    rwa [List.append_nil] at this
  have hiso : readIsoDate (isoDatePart y m d ++ ('T' :: renderTime h mi s))
      = some ((y, m, d), 'T' :: renderTime h mi s) :=
    readIsoDate_render y m d hy2 hm1 hm2 hd1 hd31 _
  have hf4 : fmtIsoOffset ((isoDatePart y m d ++ ['T']) ++
      renderTime h mi s) = none := by
    rw [hsp6, fmtIsoOffset, hiso]
    simp only [Option.some_bind]
    rw [readLitCI_self]
    simp only [Option.some_bind]
    rw [htime]
    simp only [Option.some_bind]
    rfl
  have hf5 : fmtIsoZulu ((isoDatePart y m d ++ ['T']) ++
      renderTime h mi s) = none := by
    rw [hsp6, fmtIsoZulu, hiso]
    simp only [Option.some_bind]
    rw [readLitCI_self]
    simp only [Option.some_bind]
    rw [htime]
    simp only [Option.some_bind]
    rfl
  have hf6 : fmtIsoBare ((isoDatePart y m d ++ ['T']) ++
      renderTime h mi s) = some ⟨y, m, d, h, mi, s, none⟩ := by
    rw [hsp6, fmtIsoBare, hiso]
    simp only [Option.some_bind]
    rw [readLitCI_self]
    simp only [Option.some_bind]
    rw [htime]
    simp only [Option.some_bind]
    rw [if_pos trivial,
      mkDT_some y m d h mi s none hy1 hy2 hm1 hm2 hd1 hd2 hh hmi hs
        (by intro z hz0; cases hz0)]
  have hne : (isoDatePart y m d ++ ['T']) ++ renderTime h mi s ≠ [] := by
    intro hcontra
    have hl := congrArg List.length hcontra
    simp [isoDatePart, renderTime, pad2, pad4] at hl
  rw [hshape, parseDate, parseDateTraced, if_neg hne]
  simp only [hstrip, hfix, tryFormats, hn1, hn2, hn3, hf4, hf5, hf6,
    Option.none_orElse, Option.some_orElse]
  rfl

/-- Layout 7 (`%Y-%m-%d %H:%M:%S`): parses naive via format 7 (the `T`
formats fail at the space) and is anchored to UTC. -/
theorem parse_spaced_render (y m d h mi s : Nat)
    (hy1 : 1 ≤ y) (hy2 : y ≤ 9999) (hm1 : 1 ≤ m) (hm2 : m ≤ 12)
    (hd1 : 1 ≤ d) (hd2 : d ≤ daysInMonth y m)
    (hh : h ≤ 23) (hmi : mi ≤ 59) (hs : s ≤ 59) :
    parseDate (renderLayout .spacedDateTime y m d h mi s)
      = some ⟨y, m, d, h, mi, s, some 0⟩ := by
  have hd31 : d ≤ 31 := hd2.trans (daysInMonth_le_31 y m)
  have hshape : renderLayout .spacedDateTime y m d h mi s
      = (isoDatePart y m d ++ [' ']) ++ renderTime h mi s := by
    simp [renderLayout]
  obtain ⟨hfix, hlast⟩ :=
    endTime_facts (isoDatePart y m d ++ [' ']) h mi s (by omega) (by omega)
  have hhead : headNonSpace ((isoDatePart y m d ++ [' ']) ++
      renderTime h mi s) = true := by
    have : (isoDatePart y m d ++ [' ']) ++ renderTime h mi s
        = isoDatePart y m d ++ ([' '] ++ renderTime h mi s) := by
      simp
    rw [this]
    exact headNonSpace_isoDate y m d hy2 _
  have hstrip := pyStrip_eq_self hhead hlast
  have hnamefix : readName3 wdNames ((isoDatePart y m d ++ [' ']) ++
      renderTime h mi s) = none := by
    have hsp : (isoDatePart y m d ++ [' ']) ++ renderTime h mi s
        = isoDatePart y m d ++ ([' '] ++ renderTime h mi s) := by
      simp
    rw [hsp]
    exact readName3_isoDate wdNames wdNames_heads y m d hy2 _
  obtain ⟨hn1, hn2, hn3⟩ := fmtRfc_none_of_name hnamefix
  have hsp7 : (isoDatePart y m d ++ [' ']) ++ renderTime h mi s
      = isoDatePart y m d ++ (' ' :: renderTime h mi s) := by
    simp
  have hiso : readIsoDate (isoDatePart y m d ++ (' ' :: renderTime h mi s))
      = some ((y, m, d), ' ' :: renderTime h mi s) :=
    readIsoDate_render y m d hy2 hm1 hm2 hd1 hd31 _
  have htime : readTimeHMS (renderTime h mi s) = some ((h, mi, s), []) := by
    have := readTimeHMS_render h mi s hh hmi hs []
    rwa [List.append_nil] at this
  have hlitT : readLitCI 'T' (' ' :: renderTime h mi s) = none := rfl
  have hf4 : fmtIsoOffset ((isoDatePart y m d ++ [' ']) ++
      renderTime h mi s) = none := by
    rw [hsp7, fmtIsoOffset, hiso]
    simp only [Option.some_bind]
    rw [hlitT]
    rfl
  have hf5 : fmtIsoZulu ((isoDatePart y m d ++ [' ']) ++
      renderTime h mi s) = none := by
    rw [hsp7, fmtIsoZulu, hiso]
    simp only [Option.some_bind]
    rw [hlitT]
    rfl
  have hf6 : fmtIsoBare ((isoDatePart y m d ++ [' ']) ++
      renderTime h mi s) = none := by
    rw [hsp7, fmtIsoBare, hiso]
    simp only [Option.some_bind]
    rw [hlitT]
    rfl
  have hws : readWs1 (' ' :: renderTime h mi s) = some (renderTime h mi s) := by
    apply readWs1_single
    have := headNonSpace_renderTime h mi s (by omega) []
    rwa [List.append_nil] at this
  have hf7 : fmtSpaced ((isoDatePart y m d ++ [' ']) ++
      renderTime h mi s) = some ⟨y, m, d, h, mi, s, none⟩ := by
    rw [hsp7, fmtSpaced, hiso]
    simp only [Option.some_bind]
    rw [hws]
    simp only [Option.some_bind]
    rw [htime]
    simp only [Option.some_bind]
    rw [if_pos trivial,
      mkDT_some y m d h mi s none hy1 hy2 hm1 hm2 hd1 hd2 hh hmi hs
        (by intro z hz0; cases hz0)]
  have hne : (isoDatePart y m d ++ [' ']) ++ renderTime h mi s ≠ [] := by
    intro hcontra
    have hl := congrArg List.length hcontra
    simp [isoDatePart, renderTime, pad2, pad4] at hl
  rw [hshape, parseDate, parseDateTraced, if_neg hne]
  simp only [hstrip, hfix, tryFormats, hn1, hn2, hn3, hf4, hf5, hf6, hf7,
    Option.none_orElse, Option.some_orElse]
  rfl

/-- Layout 8 (`%Y-%m-%d`): parses naive at midnight via format 8 and is
anchored to UTC. -/
theorem parse_dateOnly_render (y m d : Nat)
    (hy1 : 1 ≤ y) (hy2 : y ≤ 9999) (hm1 : 1 ≤ m) (hm2 : m ≤ 12)
    (hd1 : 1 ≤ d) (hd2 : d ≤ daysInMonth y m) :
    parseDate (renderLayout .dateOnly y m d 0 0 0)
      = some ⟨y, m, d, 0, 0, 0, some 0⟩ := by
  have hd31 : d ≤ 31 := hd2.trans (daysInMonth_le_31 y m)
  have hshape : renderLayout .dateOnly y m d 0 0 0 = isoDatePart y m d := by
    simp [renderLayout]
  obtain ⟨hfix, hlast⟩ := endDateOnly_facts y m d (by omega) (by omega)
  have hhead : headNonSpace (isoDatePart y m d) = true := by
    have : isoDatePart y m d = isoDatePart y m d ++ [] := by simp
    rw [this]
    exact headNonSpace_isoDate y m d hy2 []
  have hstrip := pyStrip_eq_self hhead hlast
  have hnamefix : readName3 wdNames (isoDatePart y m d) = none := by
    have : isoDatePart y m d = isoDatePart y m d ++ [] := by simp
    rw [this]
    exact readName3_isoDate wdNames wdNames_heads y m d hy2 []
  obtain ⟨hn1, hn2, hn3⟩ := fmtRfc_none_of_name hnamefix
  have hiso : readIsoDate (isoDatePart y m d) = some ((y, m, d), []) := by
    have := readIsoDate_render y m d hy2 hm1 hm2 hd1 hd31 []
    rwa [List.append_nil] at this
  have hf4 : fmtIsoOffset (isoDatePart y m d) = none := by
    rw [fmtIsoOffset, hiso]
    rfl
  have hf5 : fmtIsoZulu (isoDatePart y m d) = none := by
    rw [fmtIsoZulu, hiso]
    rfl
  have hf6 : fmtIsoBare (isoDatePart y m d) = none := by
    rw [fmtIsoBare, hiso]
    rfl
  have hf7 : fmtSpaced (isoDatePart y m d) = none := by
    rw [fmtSpaced, hiso]
    rfl
  have hf8 : fmtDateOnly (isoDatePart y m d)
      = some ⟨y, m, d, 0, 0, 0, none⟩ := by
    rw [fmtDateOnly, hiso]
    simp only [Option.some_bind]
    rw [if_pos trivial,
      mkDT_some y m d 0 0 0 none hy1 hy2 hm1 hm2 hd1 hd2 (by omega) (by omega)
        (by omega) (by intro z hz0; cases hz0)]
  have hne : isoDatePart y m d ≠ [] := by
    intro hcontra
    have hl := congrArg List.length hcontra
    simp [isoDatePart, pad2, pad4] at hl
  rw [hshape, parseDate, parseDateTraced, if_neg hne]
  simp only [hstrip, hfix, tryFormats, hn1, hn2, hn3, hf4, hf5, hf6, hf7, hf8,
    Option.none_orElse, Option.some_orElse]
  rfl

/-- Layout 9 (`%d %b %Y %H:%M:%S %z`). -/
theorem parse_dmyOffset_render (pos : Bool) (oh om y m d h mi s : Nat)
    (hy1 : 1 ≤ y) (hy2 : y ≤ 9999) (hm1 : 1 ≤ m) (hm2 : m ≤ 12)
    (hd1 : 1 ≤ d) (hd2 : d ≤ daysInMonth y m)
    (hh : h ≤ 23) (hmi : mi ≤ 59) (hs : s ≤ 59) (hoh : oh ≤ 23)
    (hom : om ≤ 59) :
    parseDate (renderLayout (.dmyOffset pos oh om) y m d h mi s)
      = some ⟨y, m, d, h, mi, s, some (signedOffset pos oh om)⟩ := by
  have hd31 : d ≤ 31 := hd2.trans (daysInMonth_le_31 y m)
  have hshape : renderLayout (.dmyOffset pos oh om) y m d h mi s
      = (pad2 d ++ [' '] ++ moAbbrU m ++ [' '] ++ pad4 y ++ [' '] ++
          renderTime h mi s ++ [' ']) ++ renderOffset pos oh om := by
    simp [renderLayout]
  obtain ⟨hfix, hlast⟩ :=
    endOffset_facts (pad2 d ++ [' '] ++ moAbbrU m ++ [' '] ++ pad4 y ++ [' '] ++
      renderTime h mi s ++ [' ']) pos oh om (by omega) (by omega)
  have hhead : headNonSpace ((pad2 d ++ [' '] ++ moAbbrU m ++ [' '] ++
      pad4 y ++ [' '] ++ renderTime h mi s ++ [' ']) ++
        renderOffset pos oh om) = true := by
    have : (pad2 d ++ [' '] ++ moAbbrU m ++ [' '] ++ pad4 y ++ [' '] ++
        renderTime h mi s ++ [' ']) ++ renderOffset pos oh om
        = pad2 d ++ ([' '] ++ moAbbrU m ++ [' '] ++ pad4 y ++ [' '] ++
            renderTime h mi s ++ [' '] ++ renderOffset pos oh om) := by
      simp
    rw [this]
    exact headNonSpace_pad2 d (by omega) _
  have hstrip := pyStrip_eq_self hhead hlast
  have hsp9 : (pad2 d ++ [' '] ++ moAbbrU m ++ [' '] ++ pad4 y ++ [' '] ++
      renderTime h mi s ++ [' ']) ++ ((if pos then '+' else '-') ::
        (pad2 oh ++ [':'] ++ pad2 om))
      = pad2 d ++ (' ' :: (moAbbrU m ++ (' ' :: (pad4 y ++
          (' ' :: (renderTime h mi s ++ (' ' :: ((if pos then '+' else '-') ::
            (pad2 oh ++ [':'] ++ pad2 om))))))))) := by
    simp
  have hnamefix : readName3 wdNames ((pad2 d ++ [' '] ++ moAbbrU m ++ [' '] ++
      pad4 y ++ [' '] ++ renderTime h mi s ++ [' ']) ++
        ((if pos then '+' else '-') :: (pad2 oh ++ [':'] ++ pad2 om)))
      = none := by
    rw [hsp9]
    exact readName3_pad2_space wdNames wdNames_heads d (by omega) _
  obtain ⟨hn1, hn2, hn3⟩ := fmtRfc_none_of_name hnamefix
  have hisofail : readIsoDate ((pad2 d ++ [' '] ++ moAbbrU m ++ [' '] ++
      pad4 y ++ [' '] ++ renderTime h mi s ++ [' ']) ++
        ((if pos then '+' else '-') :: (pad2 oh ++ [':'] ++ pad2 om)))
      = none := by
    rw [hsp9]
    exact readIsoDate_pad2_space d _
  obtain ⟨hi4, hi5, hi6, hi7, hi8⟩ := fmtIso_none_of_isoDate hisofail
  have hb : (pad2 d ++ [' '] ++ moAbbrU m ++ [' '] ++ pad4 y ++ [' '] ++
      renderTime h mi s ++ [' ']) ++ ((if pos then '+' else '-') ::
        (pad2 oh ++ [':'] ++ pad2 om))
      = pad2 d ++ [' '] ++ moAbbrU m ++ [' '] ++ pad4 y ++
          (' ' :: (renderTime h mi s ++ (' ' :: ((if pos then '+' else '-') ::
            (pad2 oh ++ [':'] ++ pad2 om))))) := by
    simp
  have hf9 : fmtDmyOffset ((pad2 d ++ [' '] ++ moAbbrU m ++ [' '] ++ pad4 y ++
      [' '] ++ renderTime h mi s ++ [' ']) ++ ((if pos then '+' else '-') ::
        (pad2 oh ++ [':'] ++ pad2 om)))
      = some ⟨y, m, d, h, mi, s, some (signedOffset pos oh om)⟩ := by
    rw [hb, fmtDmyOffset, readDmyCore_render y m d hy2 hm1 hm2 hd1 hd31 _]
    simp only [Option.some_bind]
    rw [readWs1_single _ (headNonSpace_renderTime h mi s (by omega) _)]
    simp only [Option.some_bind]
    rw [readTimeHMS_render h mi s hh hmi hs _]
    simp only [Option.some_bind]
    rw [readWs1_single _ (headNonSpace_sign pos _)]
    simp only [Option.some_bind]
    rw [readTz_offset pos oh om (by omega) (by omega)]
    simp only [Option.some_bind]
    rw [if_pos trivial,
      mkDT_some y m d h mi s _ hy1 hy2 hm1 hm2 hd1 hd2 hh hmi hs
        (signedOffset_bound pos oh om hoh hom)]
  have hne : (pad2 d ++ [' '] ++ moAbbrU m ++ [' '] ++ pad4 y ++ [' '] ++
      renderTime h mi s ++ [' ']) ++ renderOffset pos oh om ≠ [] := by
    intro hcontra
    have hl := congrArg List.length hcontra
    simp [renderTime, renderOffset, pad2, pad4] at hl
  rw [hshape, parseDate, parseDateTraced, if_neg hne]
  simp only [hstrip, hfix, tryFormats, hn1, hn2, hn3, hi4, hi5, hi6, hi7, hi8,
    hf9, Option.none_orElse, Option.some_orElse]
  rfl

/-- Layout 10 (`%d %b %Y`): parses naive at midnight via format 10 and is
anchored to UTC. -/
theorem parse_dmyBare_render (y m d : Nat)
    (hy1 : 1 ≤ y) (hy2 : y ≤ 9999) (hm1 : 1 ≤ m) (hm2 : m ≤ 12)
    (hd1 : 1 ≤ d) (hd2 : d ≤ daysInMonth y m) :
    parseDate (renderLayout .dmyBare y m d 0 0 0)
      = some ⟨y, m, d, 0, 0, 0, some 0⟩ := by
  have hd31 : d ≤ 31 := hd2.trans (daysInMonth_le_31 y m)
  have hshape : renderLayout .dmyBare y m d 0 0 0
      = (pad2 d ++ [' '] ++ moAbbrU m) ++ (' ' :: pad4 y) := by
    simp [renderLayout]
  obtain ⟨hfix, hlast⟩ :=
    endYear_facts (pad2 d ++ [' '] ++ moAbbrU m) y hy2
  have hhead : headNonSpace ((pad2 d ++ [' '] ++ moAbbrU m) ++
      (' ' :: pad4 y)) = true := by
    have : (pad2 d ++ [' '] ++ moAbbrU m) ++ (' ' :: pad4 y)
        = pad2 d ++ ([' '] ++ moAbbrU m ++ (' ' :: pad4 y)) := by
      simp
    rw [this]
    exact headNonSpace_pad2 d (by omega) _
  have hstrip := pyStrip_eq_self hhead hlast
  have hsp10 : (pad2 d ++ [' '] ++ moAbbrU m) ++ (' ' :: pad4 y)
      = pad2 d ++ (' ' :: (moAbbrU m ++ (' ' :: (pad4 y ++ [])))) := by
    simp
  have hnamefix : readName3 wdNames ((pad2 d ++ [' '] ++ moAbbrU m) ++
      (' ' :: pad4 y)) = none := by
    rw [hsp10]
    exact readName3_pad2_space wdNames wdNames_heads d (by omega) _
  obtain ⟨hn1, hn2, hn3⟩ := fmtRfc_none_of_name hnamefix
  have hisofail : readIsoDate ((pad2 d ++ [' '] ++ moAbbrU m) ++
      (' ' :: pad4 y)) = none := by
    rw [hsp10]
    exact readIsoDate_pad2_space d _
  obtain ⟨hi4, hi5, hi6, hi7, hi8⟩ := fmtIso_none_of_isoDate hisofail
  have hb : (pad2 d ++ [' '] ++ moAbbrU m) ++ (' ' :: pad4 y)
      = pad2 d ++ [' '] ++ moAbbrU m ++ [' '] ++ pad4 y ++ [] := by
    simp
  have hcore : readDmyCore ((pad2 d ++ [' '] ++ moAbbrU m) ++ (' ' :: pad4 y))
      = some ((y, m, d), []) := by
    rw [hb]
    exact readDmyCore_render y m d hy2 hm1 hm2 hd1 hd31 []
  have hf9 : fmtDmyOffset ((pad2 d ++ [' '] ++ moAbbrU m) ++
      (' ' :: pad4 y)) = none := by
    rw [fmtDmyOffset, hcore]
    rfl
  have hf10 : fmtDmyBare ((pad2 d ++ [' '] ++ moAbbrU m) ++
      (' ' :: pad4 y)) = some ⟨y, m, d, 0, 0, 0, none⟩ := by
    rw [fmtDmyBare, hcore]
    simp only [Option.some_bind]
    rw [if_pos trivial,
      mkDT_some y m d 0 0 0 none hy1 hy2 hm1 hm2 hd1 hd2 (by omega) (by omega)
        (by omega) (by intro z hz0; cases hz0)]
  have hne : (pad2 d ++ [' '] ++ moAbbrU m) ++ (' ' :: pad4 y) ≠ [] := by
    intro hcontra
    have hl := congrArg List.length hcontra
    simp [pad2, pad4] at hl
  rw [hshape, parseDate, parseDateTraced, if_neg hne]
  simp only [hstrip, hfix, tryFormats, hn1, hn2, hn3, hi4, hi5, hi6, hi7, hi8,
    hf9, hf10, Option.none_orElse, Option.some_orElse]
  rfl

/-! ## C2 — the date-format priority list -/

/-- C2 counterexample: the RFC-2822-with-named-zone layout with zone `PDT`.
In the reference environment `%Z` matches only UTC/GMT, so every format
fails and the regex fallback extracts just `05 Oct 2025`: the result is
midnight 2025-10-05 UTC, which is not the UTC-normalized wall-clock time
the string encodes (2025-10-05 19:25:37 at UTC-7, i.e. 2025-10-06
02:25:37Z) — the time of day and the zone are silently dropped. -/
theorem c2_counterexample :
    parseDate (renderLayout (.rfcNamed 6 "PDT".data) 2025 10 5 19 25 37)
      = some ⟨2025, 10, 5, 0, 0, 0, some 0⟩ ∧
    instantSecs ⟨2025, 10, 5, 0, 0, 0, some 0⟩
      ≠ encodedInstant (.rfcNamed 6 "PDT".data) 2025 10 5 19 25 37 :=
  ⟨rfl, by decide⟩

/-- C2 (amended): for every date string written in one of the ten layouts of
the fixed priority list — with the named-zone layout restricted to the zone
names UTC/GMT that the reference environment's `%Z` accepts — `_parse_date`
returns a timezone-aware datetime equal to the UTC-normalized wall-clock
time the string encodes, with UTC assigned when the layout carries no zone
information.  (For any other zone name the named-zone layout drops the time
of day and zone, as the counterexample shows.) -/
theorem c2_layout_roundtrip :
    ∀ (L : DateLayout) (y m d h mi s : Nat),
      layoutValid L y m d h mi s →
      parseDate (renderLayout L y m d h mi s)
        = some (expectedDT L y m d h mi s) ∧
      (expectedDT L y m d h mi s).tz ≠ none ∧
      instantSecs (expectedDT L y m d h mi s)
        = encodedInstant L y m d h mi s := by
  intro L y m d h mi s hv
  obtain ⟨hy1, hy2, hm1, hm2, hd1, hd2, hh, hmi, hs, hextra⟩ := hv
  refine ⟨?_, ?_, ?_⟩
  · cases L with
    | rfcOffset w pos oh om =>
      obtain ⟨hoh, hom⟩ := hextra
      rw [parse_rfcOffset_render w pos oh om y m d h mi s hy1 hy2 hm1 hm2 hd1
        hd2 hh hmi hs hoh hom]
      rfl
    | rfcNamed w zone =>
      have h0 : namedZoneOffset zone = 0 := by
        rcases hextra with hz | hz <;> subst hz <;> rfl
      rw [parse_rfcNamed_render w zone hextra y m d h mi s hy1 hy2 hm1 hm2 hd1
        hd2 hh hmi hs]
      simp [expectedDT, layoutHasTime, layoutOffset, h0]
    | rfcBare w =>
      rw [parse_rfcBare_render w y m d h mi s hy1 hy2 hm1 hm2 hd1 hd2 hh hmi hs]
      rfl
    | isoOffset pos oh om =>
      obtain ⟨hoh, hom⟩ := hextra
      rw [parse_isoOffset_render pos oh om y m d h mi s hy1 hy2 hm1 hm2 hd1
        hd2 hh hmi hs hoh hom]
      rfl
    | isoZulu =>
      rw [parse_isoZulu_render y m d h mi s hy1 hy2 hm1 hm2 hd1 hd2 hh hmi hs]
      rfl
    | isoBare =>
      rw [parse_isoBare_render y m d h mi s hy1 hy2 hm1 hm2 hd1 hd2 hh hmi hs]
      rfl
    | spacedDateTime =>
      rw [parse_spaced_render y m d h mi s hy1 hy2 hm1 hm2 hd1 hd2 hh hmi hs]
      rfl
    | dateOnly =>
      exact parse_dateOnly_render y m d hy1 hy2 hm1 hm2 hd1 hd2
    | dmyOffset pos oh om =>
      obtain ⟨hoh, hom⟩ := hextra
      rw [parse_dmyOffset_render pos oh om y m d h mi s hy1 hy2 hm1 hm2 hd1
        hd2 hh hmi hs hoh hom]
      rfl
    | dmyBare =>
      exact parse_dmyBare_render y m d hy1 hy2 hm1 hm2 hd1 hd2
  · cases L <;> simp [expectedDT, layoutHasTime]
  · cases L <;> simp [expectedDT, encodedInstant, instantSecs, layoutHasTime]

/-- Witness for C2 at the concrete string `"Sun, 05 Oct 2025 19:25:37 -0700"`
(layout 1). -/
theorem c2_layout_roundtrip_witness :
    parseDate (renderLayout (.rfcOffset 6 false 7 0) 2025 10 5 19 25 37)
      = some (expectedDT (.rfcOffset 6 false 7 0) 2025 10 5 19 25 37) ∧
    (expectedDT (.rfcOffset 6 false 7 0) 2025 10 5 19 25 37).tz ≠ none ∧
    instantSecs (expectedDT (.rfcOffset 6 false 7 0) 2025 10 5 19 25 37)
      = encodedInstant (.rfcOffset 6 false 7 0) 2025 10 5 19 25 37 :=
  c2_layout_roundtrip (.rfcOffset 6 false 7 0) 2025 10 5 19 25 37
    ⟨by omega, by omega, by omega, by omega, by omega, by decide, by omega,
     by omega, by omega, by omega, by omega⟩

end Podcast
